import Mathlib

/-!
Verification of the InvestIQ site-crawling and section-discovery engine.

Shallow embedding of `src/scripts/utils/scraper.py` (the crawl core selected
by the specification), together with the parts of the Python standard library
that the scraper's observable behaviour depends on:

* `urllib.parse.urlsplit` / `urlparse` / `urljoin` (CPython algorithm);
* `urllib.robotparser.RobotFileParser` (the state relevant to allow/deny
  decisions: `disallow_all`, `allow_all`, `last_checked`, parsed rules).

Modelling conventions:
* Python strings are `List Char` (`Str`). Python's `str.lower` / whitespace
  stripping are modelled on ASCII, which is exact for all inputs the claims
  exercise; URLs containing the WHATWG control characters stripped by newer
  CPython `urlsplit` are outside the model.
* The network, the HTML parser (BeautifulSoup), the hash function
  (`hashlib.sha256`) and the seed file are external collaborators; they are
  modelled as fields of an environment `Env`: a fixed function from inputs to
  outcomes.  Repository code is embedded from the source; only these external
  boundaries are abstract.
* Effectful functions return `α × List Str`: the value together with the list
  of URLs requested over HTTP, in order.  The process-wide robots cache of the
  source is semantically transparent given a fixed `Env` (robots outcomes are
  deterministic per domain), so it is elided: this changes only how many times
  `robots.txt` is requested, never any value, and never whether the request
  list is empty.
* Floating-point scores in `discover_from_nav` are modelled as rationals.
  Every constant except `0.2` is a dyadic rational exactly representable in
  binary64, scores are sums of constants from the grid `(1/4)·ℤ` minus at most
  one occurrence of `0.2`, and distinct rational scores differ by at least
  `1/20`, far above the rounding error of the float computation, so float
  comparisons coincide with the rational ones.
-/

namespace InvestIQ

/-- Python strings, modelled as lists of characters. -/
abbrev Str := List Char

/-- The apostrophe character (kept out of string literals). -/
def apos : Char := Char.ofNat 39

/-- Model of Python `str.lower` (ASCII case folding). -/
def pyLower (s : Str) : Str := s.map Char.toLower

/-- ASCII whitespace, the characters stripped by Python `str.strip()`
for the inputs in scope. -/
def isPySpace (c : Char) : Bool :=
  c = ' ' || c = Char.ofNat 9 || c = Char.ofNat 10 || c = Char.ofNat 13 ||
  c = Char.ofNat 11 || c = Char.ofNat 12

/-- Strip trailing characters satisfying `p` (Python `str.rstrip`). -/
def pyRstrip (p : Char → Bool) : Str → Str
  | [] => []
  | c :: t =>
    match pyRstrip p t with
    | [] => if p c then [] else [c]
    | r => c :: r

/-- Python `url.rstrip("/")`. -/
def rstripSlash (s : Str) : Str := pyRstrip (fun c => c = '/') s

/-- Python `str.strip()` (whitespace on both ends). -/
def pyStrip (s : Str) : Str := pyRstrip isPySpace (s.dropWhile isPySpace)

/-- Python `str.lstrip("/")`. -/
def lstripSlash (s : Str) : Str := s.dropWhile (fun c => c = '/')

/-- Boolean prefix test. -/
def startsWithList : Str → Str → Bool
  | _, [] => true
  | [], _ :: _ => false
  | c :: h, d :: n => d = c && startsWithList h n

/-- Python `hay.startswith(needle)`. -/
def startsWith (hay needle : Str) : Bool := startsWithList hay needle

/-- Python `needle in hay` (substring test). -/
def containsStr : Str → Str → Bool
  | hay, needle =>
    match hay with
    | [] => startsWithList [] needle
    | _ :: t => startsWithList hay needle || containsStr t needle

/-- Python `s.count(c)` for a single character. -/
def countChar (c : Char) (s : Str) : Nat := s.countP (fun d => d = c)

/-- Characters allowed in a URL scheme (`urllib.parse.scheme_chars`). -/
def isSchemeChar (c : Char) : Bool :=
  c.isAlpha || c.isDigit || c = '+' || c = '-' || c = '.'

/-- Characters that terminate the netloc in `urllib.parse._splitnetloc`. -/
def isNetlocChar (c : Char) : Bool := !(c = '/' || c = '?' || c = '#')

/-- Result of `urllib.parse.urlsplit`: `(scheme, netloc, path, query, fragment)`. -/
structure SplitResult where
  scheme : Str
  netloc : Str
  path : Str
  query : Str
  fragment : Str
deriving DecidableEq, Repr

/-- Split off the scheme, as CPython `urlsplit` does: the text before the
first `:` is a scheme when the colon is not first, the first character is an
ASCII letter and every character before the colon is a scheme character.
Returns the (lowercased) scheme and the remainder after the colon, or
`([], u)` when `u` has no scheme. -/
def splitScheme (u : Str) : Str × Str :=
  let i := u.findIdx (fun c => c = ':')
  if 0 < i ∧ i < u.length ∧
      (u.take i).all isSchemeChar ∧ (u.headD ' ').isAlpha then
    (pyLower (u.take i), u.drop (i + 1))
  else
    ([], u)

/-- Split the netloc when the remainder starts with `//` (CPython
`url[:2] == '//'` and `_splitnetloc`): the netloc runs to the first `/`,
`?` or `#`. -/
def splitNetloc (u : Str) : Str × Str :=
  if u.take 2 = "//".toList then
    ((u.drop 2).takeWhile isNetlocChar, (u.drop 2).dropWhile isNetlocChar)
  else ([], u)

/-- Split a string at the first occurrence of `d`:
`(before, after-without-d)`; the second component is `[]` when `d` is absent
(matches Python `s.split(d, 1)` combined with the `d in s` guard). -/
def splitOnFirst (d : Char) (s : Str) : Str × Str :=
  (s.takeWhile (fun c => !(c = d)), (s.dropWhile (fun c => !(c = d))).drop 1)

/-- Model of `urllib.parse.urlsplit` with a default scheme
(CPython algorithm, `allow_fragments=True`). -/
def urlsplitD (dflt : Str) (u : Str) : SplitResult :=
  let (scheme0, rest) := splitScheme u
  let scheme := if scheme0 = [] then dflt else scheme0
  let (netloc, rest2) := splitNetloc rest
  let (beforeHash, fragment) := splitOnFirst '#' rest2
  let (path, query) := splitOnFirst '?' beforeHash
  ⟨scheme, netloc, path, query, fragment⟩

/-- Model of `urllib.parse.urlsplit`. -/
def urlsplit (u : Str) : SplitResult := urlsplitD [] u

/-- `urllib.parse.uses_params` (the exact CPython 3.11 list). -/
def usesParams (scheme : Str) : Bool :=
  scheme = [] || scheme = "ftp".toList || scheme = "hdl".toList ||
  scheme = "prospero".toList || scheme = "http".toList || scheme = "imap".toList ||
  scheme = "https".toList || scheme = "shttp".toList || scheme = "rtsp".toList ||
  scheme = "rtspu".toList || scheme = "sip".toList || scheme = "sips".toList ||
  scheme = "mms".toList || scheme = "sftp".toList || scheme = "tel".toList

/-- `urllib.parse.uses_relative` (the exact CPython 3.11 list). -/
def usesRelative (scheme : Str) : Bool :=
  scheme = [] || scheme = "ftp".toList || scheme = "http".toList ||
  scheme = "gopher".toList || scheme = "nntp".toList || scheme = "imap".toList ||
  scheme = "wais".toList || scheme = "file".toList || scheme = "https".toList ||
  scheme = "shttp".toList || scheme = "mms".toList || scheme = "prospero".toList ||
  scheme = "rtsp".toList || scheme = "rtspu".toList || scheme = "sftp".toList ||
  scheme = "svn".toList || scheme = "svn+ssh".toList || scheme = "ws".toList ||
  scheme = "wss".toList

/-- `urllib.parse.uses_netloc` (the exact CPython 3.11 list). -/
def usesNetloc (scheme : Str) : Bool :=
  scheme = [] || scheme = "ftp".toList || scheme = "http".toList ||
  scheme = "gopher".toList || scheme = "nntp".toList || scheme = "telnet".toList ||
  scheme = "imap".toList || scheme = "wais".toList || scheme = "file".toList ||
  scheme = "mms".toList || scheme = "https".toList || scheme = "shttp".toList ||
  scheme = "snews".toList || scheme = "prospero".toList || scheme = "rtsp".toList ||
  scheme = "rtspu".toList || scheme = "rsync".toList || scheme = "svn".toList ||
  scheme = "svn+ssh".toList || scheme = "sftp".toList || scheme = "nfs".toList ||
  scheme = "git".toList || scheme = "git+ssh".toList || scheme = "ws".toList ||
  scheme = "wss".toList

/-- Python `s.find(c, start)`: index of the first `c` at or after `start`,
or `none`. -/
def pyFindFrom (c : Char) (s : Str) (start : Nat) : Option Nat :=
  let i := (s.drop start).findIdx (fun d => d = c)
  if i < (s.drop start).length then some (start + i) else none

/-- Python `s.rfind(c)`: index of the last `c`, or `none`. -/
def pyRfind (c : Char) (s : Str) : Option Nat :=
  let j := s.reverse.findIdx (fun d => d = c)
  if j < s.length then some (s.length - 1 - j) else none

/-- Model of `urllib.parse._splitparams`: split `;params` from the last path
segment. -/
def splitparams (url : Str) : Str × Str :=
  let i :=
    if containsStr url "/".toList then
      match pyRfind '/' url with
      | some k => pyFindFrom ';' url k
      | none => pyFindFrom ';' url 0
    else
      pyFindFrom ';' url 0
  match i with
  | none => (url, [])
  | some k => (url.take k, url.drop (k + 1))

/-- Result of `urllib.parse.urlparse` (6 components, with `params`). -/
structure ParseResult where
  scheme : Str
  netloc : Str
  path : Str
  params : Str
  query : Str
  fragment : Str
deriving DecidableEq, Repr

/-- Model of `urllib.parse.urlparse` with a default scheme. -/
def urlparseD (dflt : Str) (u : Str) : ParseResult :=
  let s := urlsplitD dflt u
  if usesParams s.scheme ∧ containsStr s.path (";".toList) then
    let (p, params) := splitparams s.path
    ⟨s.scheme, s.netloc, p, params, s.query, s.fragment⟩
  else
    ⟨s.scheme, s.netloc, s.path, [], s.query, s.fragment⟩

/-- Model of `urllib.parse.urlparse`. -/
def urlparse (u : Str) : ParseResult := urlparseD [] u

/-- Model of `urllib.parse.urlunsplit`. -/
def urlunsplit (scheme netloc url query fragment : Str) : Str :=
  let url1 :=
    if netloc ≠ [] ∨ (url ≠ [] ∧ startsWith url "//".toList) then
      let url0 := if url ≠ [] ∧ ¬ startsWith url "/".toList then '/' :: url else url
      "//".toList ++ netloc ++ url0
    else url
  let url2 := if scheme ≠ [] then scheme ++ [':'] ++ url1 else url1
  let url3 := if query ≠ [] then url2 ++ ['?'] ++ query else url2
  if fragment ≠ [] then url3 ++ ['#'] ++ fragment else url3

/-- Model of `urllib.parse.urlunparse`. -/
def urlunparse (scheme netloc url params query fragment : Str) : Str :=
  let url1 := if params ≠ [] then url ++ [';'] ++ params else url
  urlunsplit scheme netloc url1 query fragment

/-- Python `path.split("/")`. -/
def splitSlash : Str → List Str
  | [] => [[]]
  | c :: t =>
    let r := splitSlash t
    if c = '/' then [] :: r
    else
      match r with
      | [] => [[c]]
      | h :: rest => (c :: h) :: rest

/-- `segments[1:-1] = filter(None, segments[1:-1])` applied to the tail of a
segment list: remove empty strings except from the last position. -/
def filterEmptyButLast : List Str → List Str
  | [] => []
  | [y] => [y]
  | y :: ys => if y = [] then filterEmptyButLast ys else y :: filterEmptyButLast ys

/-- Resolution of `.` and `..` segments in `urljoin` (the
`resolved_path` loop; popping an empty stack is a no-op). -/
def resolveSegments (segs : List Str) : List Str :=
  segs.foldl
    (fun acc seg =>
      if seg = "..".toList then acc.dropLast
      else if seg = ".".toList then acc
      else acc ++ [seg])
    []

/-- Model of `urllib.parse.urljoin` (CPython algorithm).
`urlparse(url, bscheme)` supplies the base scheme as default when `url` has
none, which is inlined below. -/
def urljoin (base url : Str) : Str :=
  if base = [] then url
  else if url = [] then base
  else
    let b := urlparse base
    let r := urlparseD b.scheme url
    if ¬ (r.scheme = b.scheme ∧ usesRelative r.scheme) then url
    else
      let netloc := if usesNetloc r.scheme ∧ r.netloc ≠ [] then r.netloc else b.netloc
      if usesNetloc r.scheme ∧ r.netloc ≠ [] then
        urlunparse r.scheme r.netloc r.path r.params r.query r.fragment
      else if r.path = [] ∧ r.params = [] then
        let query := if r.query = [] then b.query else r.query
        urlunparse r.scheme netloc b.path b.params query r.fragment
      else
        let baseParts0 := splitSlash b.path
        let baseParts :=
          if baseParts0.getLastD [] ≠ [] then baseParts0.dropLast else baseParts0
        let segments :=
          if startsWith r.path "/".toList then splitSlash r.path
          else
            -- `segments[1:-1] = filter(None, segments[1:-1])`: the first and
            -- last elements are kept even when empty
            match baseParts ++ splitSlash r.path with
            | [] => []
            | h :: t => h :: filterEmptyButLast t
        let resolved := resolveSegments segments
        let resolved2 :=
          if segments.getLastD [] = ".".toList ∨ segments.getLastD [] = "..".toList
          then resolved ++ [[]]
          else resolved
        let joined := List.intercalate "/".toList resolved2
        let path := if joined = [] then "/".toList else joined
        urlunparse r.scheme netloc path r.params r.query r.fragment

/-! ## The external world

HTTP, the HTML parser, the hash and the seed file are external collaborators.
An `Env` fixes their behaviour: a deterministic function from inputs to
outcomes.  All repository logic is embedded from the source on top of it. -/

/-- A `requests.Response`: status code, `Content-Type` header value
(`""` when absent), final URL after redirects, and decoded body text. -/
structure Response where
  status_code : Nat
  content_type : Str
  url : Str
  text : Str
deriving DecidableEq, Repr

/-- Outcome of `RobotFileParser.read()` for a domain's `robots.txt`:
the fetch raises (network error, timeout, DNS failure, or undecodable body),
fails with an HTTP status, or yields a parsed rule set.  The rule set is the
abstraction of `urllib.robotparser`'s entry matching: a function from
(user agent, url) to the allowance decision. -/
inductive RobotsResult where
  | raise : RobotsResult
  | httpError (code : Nat) : RobotsResult
  | parsed (rules : Str → Str → Bool) : RobotsResult

/-- An anchor tag extracted by BeautifulSoup: `href` attribute and visible
text (as returned by `a["href"]` and `a.get_text()`, before stripping). -/
structure Anchor where
  href : Str
  text : Str
deriving DecidableEq, Repr

/-- A row of the seed index built by `read_seed` (already normalized;
per spec §6 seed parsing is upstream of the core). -/
structure SeedRow where
  company_name : Str
  website : Str
deriving DecidableEq, Repr

/-- The environment: deterministic models of every external collaborator.
`robotsFetch` is keyed by the `scheme://netloc` domain string that
`getRobotsParser` constructs. -/
structure Env where
  robotsFetch : Str → RobotsResult
  pageFetch : Str → Option Response
  anchorsOf : Str → List Anchor
  titleOf : Str → Str
  canonicalOf : Str → Option Str
  robotsMetaOf : Str → Option Str
  strippedTextOf : Str → Str
  sha256hex : List Nat → Str
  now : Str
  parserName : Str
  seedIndex : Str → Option SeedRow

/-- Effectful computations: a value together with the list of URLs requested
over HTTP, in order. -/
abbrev M (α : Type) := α × List Str

/-! ## Model of `urllib.robotparser.RobotFileParser`

Only the state that decides `can_fetch` is kept: `disallow_all` and
`allow_all` (set by `read()` on 401/403 and other 4xx errors respectively),
`last_checked` (set by `parse()`, `0`/`false` as long as the file was never
parsed), and the parsed rules.  A freshly constructed parser has all three
flags false. -/

/-- State of a `RobotFileParser` relevant to `can_fetch`. -/
structure RobotFileParser where
  disallow_all : Bool := false
  allow_all : Bool := false
  last_checked : Bool := false
  rules : Str → Str → Bool := fun _ _ => true

/-- CPython `RobotFileParser.can_fetch`: `disallow_all` forces `False`,
`allow_all` forces `True`, and an unread parser (`last_checked == 0`)
returns `False` — "until the robots.txt file has been read or found not to
exist, we must assume that no url is allowable". -/
def RobotFileParser.can_fetch (rp : RobotFileParser) (useragent url : Str) : Bool :=
  if rp.disallow_all then false
  else if rp.allow_all then true
  else if !rp.last_checked then false
  else rp.rules useragent url

/-! ## Scraper constants (`scraper.py` lines 97-137) -/

/-- The fixed browser-like user agent (`UA`). -/
def UA : Str :=
  ("Mozilla/5.0 (Macintosh; Intel Mac OS X 10_15_7) " ++
   "AppleWebKit/537.36 (KHTML, like Gecko) " ++
   "Chrome/120 Safari/537.36").toList

/-- `BLOCKED_HOSTS` (a Python set; modelled as a list, membership and
iteration order do not matter for any use). -/
def BLOCKED_HOSTS : List Str :=
  ["forbes.com".toList, "www.forbes.com".toList,
   "w1.buysub.com".toList, "buysub.com".toList]

/-- `SPAM_PATH = re.compile(r"(coupon|coupons|offer|deals|ref=|utm_)", re.I)`,
applied with `.search`: the URL contains one of the alternatives,
case-insensitively. -/
def SPAM_PATH_search (s : Str) : Bool :=
  let ls := pyLower s
  containsStr ls "coupon".toList || containsStr ls "coupons".toList ||
  containsStr ls "offer".toList || containsStr ls "deals".toList ||
  containsStr ls "ref=".toList || containsStr ls "utm_".toList

/-- The four section keys the crawler resolves beyond the homepage.
(`CANDIDATE_SLUGS` also carries a `"homepage"` entry `[""]` in the source;
it is dead code — `try_section` is only ever called with these four keys
and nothing else reads it.) -/
inductive Section where
  | about | product | careers | blog
deriving DecidableEq, Repr

/-- `CANDIDATE_SLUGS`: fixed per-section slug guesses, in listed order. -/
def CANDIDATE_SLUGS : Section → List Str
  | .about => ["about".toList, "about-us".toList, "company".toList,
               "who-we-are".toList, "our-story".toList]
  | .product => ["product".toList, "products".toList, "platform".toList,
                 "solutions".toList, "technology".toList, "features".toList]
  | .careers => ["careers".toList, "career".toList, "jobs".toList,
                 "join-us".toList, "join".toList, "team#careers".toList]
  | .blog => ["blog".toList, "news".toList, "press".toList, "insights".toList,
              "resources".toList, "stories".toList, "media".toList]

/-! ### The section keyword regexes (`PATTERNS`)

Each pattern is an alternation searched anywhere in the string
(`pattern.search`), case-insensitively.  `search` existence is implemented
alternative by alternative; an optional suffix group such as `(\s*us)?` in
`about(\s*us)?` cannot change whether a match exists, so such alternatives
reduce to their mandatory part. -/

/-- Match a sequence of literal parts separated by `\s*` at the start of the
string. -/
def matchPartsAt : List Str → Str → Bool
  | [], _ => true
  | p :: ps, s => startsWith s p && matchPartsAt ps ((s.drop p.length).dropWhile isPySpace)

/-- Search a `\s*`-separated sequence of literal parts anywhere in the
string. -/
def searchParts (parts : List Str) : Str → Bool
  | [] => matchPartsAt parts []
  | c :: t => matchPartsAt parts (c :: t) || searchParts parts t

/-- Search for an occurrence of `word` not immediately followed by `bad`
(negative lookahead `word(?!bad)`). -/
def searchWordNotFollowed (word bad : Str) : Str → Bool
  | [] => startsWith [] word && !(startsWith (([] : Str).drop word.length) bad)
  | c :: t =>
    (startsWith (c :: t) word && !(startsWith ((c :: t).drop word.length) bad)) ||
    searchWordNotFollowed word bad t

/-- `PATTERNS["about"]`:
`(about(\s*us)?|about-us|company|who\s*we\s*are|our\s*story|mission|team(?!#careers))`. -/
def aboutSearch (s : Str) : Bool :=
  let l := pyLower s
  searchParts ["about".toList] l ||
  searchParts ["about-us".toList] l ||
  searchParts ["company".toList] l ||
  searchParts ["who".toList, "we".toList, "are".toList] l ||
  searchParts ["our".toList, "story".toList] l ||
  searchParts ["mission".toList] l ||
  searchWordNotFollowed "team".toList "#careers".toList l

/-- `PATTERNS["product"]`:
`(product(s)?|platform|solution(s)?|technology|features|capabilit(y|ies))`. -/
def productSearch (s : Str) : Bool :=
  let l := pyLower s
  searchParts ["product".toList] l ||
  searchParts ["platform".toList] l ||
  searchParts ["solution".toList] l ||
  searchParts ["technology".toList] l ||
  searchParts ["features".toList] l ||
  searchParts ["capability".toList] l ||
  searchParts ["capabilities".toList] l

/-- `PATTERNS["careers"]`:
`(career(s)?|jobs?|join(\s*us)?|we'?re\s*hiring|open\s*roles|team#careers)`. -/
def careersSearch (s : Str) : Bool :=
  let l := pyLower s
  searchParts ["career".toList] l ||
  searchParts ["job".toList] l ||
  searchParts ["join".toList] l ||
  searchParts ["were".toList, "hiring".toList] l ||
  searchParts [("we".toList ++ [apos] ++ "re".toList), "hiring".toList] l ||
  searchParts ["open".toList, "roles".toList] l ||
  searchParts ["team#careers".toList] l

/-- `PATTERNS["blog"]`:
`(blog|news|press|insights|resources|stories|media|updates)`. -/
def blogSearch (s : Str) : Bool :=
  let l := pyLower s
  searchParts ["blog".toList] l || searchParts ["news".toList] l ||
  searchParts ["press".toList] l || searchParts ["insights".toList] l ||
  searchParts ["resources".toList] l || searchParts ["stories".toList] l ||
  searchParts ["media".toList] l || searchParts ["updates".toList] l

/-- `PATTERNS[section].search`. -/
def PATTERNS : Section → Str → Bool
  | .about => aboutSearch
  | .product => productSearch
  | .careers => careersSearch
  | .blog => blogSearch

/-! ## Scraper utilities (`scraper.py` lines 147-294) -/

/-- `slugify` step 1: `re.sub(r"[^a-z0-9]+", "-", s)` on an
already-lowercased string — each maximal run of characters outside
`[a-z0-9]` becomes a single `-`.  The flag records whether the previous
character was part of such a run. -/
def subNonAlnumRuns : Bool → Str → Str
  | _, [] => []
  | inRun, c :: t =>
    if c.isLower || c.isDigit then c :: subNonAlnumRuns false t
    else if inRun then subNonAlnumRuns true t
    else '-' :: subNonAlnumRuns true t

/-- `slugify(name)`. -/
def slugify (name : Str) : Str :=
  let core := subNonAlnumRuns false (pyLower (pyStrip name))
  let stripped := pyRstrip (fun c => c = '-') (core.dropWhile (fun c => c = '-'))
  if stripped = [] then "company".toList else stripped

/-- `normalize_base(url)`: prepend `https://` when the scheme is missing,
issue a GET (no robots check), and return the final URL without trailing
slash when the response is HTML; on any failure fall back to the input
without trailing slash.  The GET is an HTTP request and is logged. -/
def normalize_base (env : Env) (url : Str) : M Str :=
  if url = [] then (url, [])
  else
    let u := if startsWith url "http".toList then url else "https://".toList ++ url
    match env.pageFetch u with
    | some r =>
      if containsStr r.content_type "text/html".toList then (rstripSlash r.url, [u])
      else (rstripSlash u, [u])
    | none => (rstripSlash u, [u])

/-- `same_domain(u, base)`: equality of `urlparse` netlocs. -/
def same_domain (u base : Str) : Bool :=
  decide ((urlparse u).netloc = (urlparse base).netloc)

/-- `is_html_ok(resp)`: status 200 and an HTML/XHTML content type. -/
def is_html_ok (r : Response) : Bool :=
  let ctype := pyLower r.content_type
  r.status_code = 200 &&
    (containsStr ctype "text/html".toList || containsStr ctype "application/xhtml".toList)

/-- `blocked(host)`: the lowercased host is a blocked host or a subdomain of
one (`host.endswith("." + b)`). -/
def blocked (host : Str) : Bool :=
  let h := pyLower host
  BLOCKED_HOSTS.any (fun b => decide (h = b)) ||
  BLOCKED_HOSTS.any (fun b => startsWithList h.reverse ('.' :: b).reverse)

/-- `get_robots_parser(url)` of the source (renamed here): derive the
domain, fetch and read
`robots.txt` once, and return the resulting parser.

* fetch raises → the source builds a replacement `RobotFileParser()` and
  never calls `read()` on it: all flags default to false;
* `HTTPError` 401/403 → `disallow_all`; other 4xx → `allow_all`; 5xx leaves
  every flag false (CPython `read()`);
* success → parsed rules with `last_checked` set.

The process-wide `_ROBOTS_CACHE` is elided: outcomes are deterministic per
domain in a fixed `Env`, so caching changes no value (see the header note). -/
def getRobotsParser (env : Env) (url : Str) : M RobotFileParser :=
  let parsed := urlparse url
  let domain := parsed.scheme ++ "://".toList ++ parsed.netloc
  let robots_url := urljoin domain "/robots.txt".toList
  match env.robotsFetch domain with
  | .raise => ({}, [robots_url])
  | .httpError code =>
    if code = 401 ∨ code = 403 then ({ disallow_all := true }, [robots_url])
    else if 400 ≤ code ∧ code < 500 then ({ allow_all := true }, [robots_url])
    else ({}, [robots_url])
  | .parsed rules => ({ last_checked := true, rules := rules }, [robots_url])

/-- `can_fetch(url)` of the scraper module: delegate to the domain's parser
with the fixed user agent (`user_agent=None` default).  The source's
`except:` fallback to `True` is unreachable in the model —
`RobotFileParser.can_fetch` does not raise. -/
def can_fetch (env : Env) (url : Str) : M Bool :=
  let (rp, log) := getRobotsParser env url
  (rp.can_fetch UA url, log)

/-- Value of the robots gate for a URL (the pure valuation of `can_fetch`). -/
def canFetchB (env : Env) (url : Str) : Bool := (can_fetch env url).1

/-- Outcome of `fetch`: the robots gate raised, `requests.get` raised, or a
response came back. -/
inductive FetchResult where
  | robotsDisallowed : FetchResult
  | requestFailed : FetchResult
  | ok (r : Response) : FetchResult
deriving Repr

/-- `fetch(url, check_robots)`: consult the robots gate, then issue a single
GET following redirects.  A denied URL raises before any GET is issued. -/
def fetch (env : Env) (url : Str) (check_robots : Bool) : M FetchResult :=
  if check_robots then
    let (allowed, l) := can_fetch env url
    if !allowed then (.robotsDisallowed, l)
    else
      match env.pageFetch url with
      | none => (.requestFailed, l ++ [url])
      | some r => (.ok r, l ++ [url])
  else
    match env.pageFetch url with
    | none => (.requestFailed, [url])
    | some r => (.ok r, [url])

/-! ## Content normalizer (`clean_text`, `page_meta`, lines 225-260) -/

/-- Whitespace collapsing of `clean_text`:
`re.sub(r"\s+", " ", text)` (flag: inside a whitespace run). -/
def collapseWs : Bool → Str → Str
  | _, [] => []
  | inWs, c :: t =>
    if isPySpace c then
      if inWs then collapseWs true t else ' ' :: collapseWs true t
    else c :: collapseWs false t

/-- `clean_text(html)`: visible text after tag stripping (the BeautifulSoup
part is the environment's `strippedTextOf`), whitespace collapsed and
stripped. -/
def clean_text (env : Env) (html : Str) : Str :=
  pyStrip (collapseWs false (env.strippedTextOf html))

/-- UTF-8 encoding of one character (RFC 3629), as `str.encode("utf-8")`
produces per code point. -/
def utf8Bytes (c : Char) : List Nat :=
  let n := c.toNat
  if n < 128 then [n]
  else if n < 2048 then [192 + n / 64, 128 + n % 64]
  else if n < 65536 then [224 + n / 4096, 128 + (n / 64) % 64, 128 + n % 64]
  else [240 + n / 262144, 128 + (n / 4096) % 64, 128 + (n / 64) % 64, 128 + n % 64]

/-- `html.encode("utf-8")`: the exact bytes written to the `.html` file. -/
def utf8Encode (s : Str) : List Nat := (s.map utf8Bytes).flatten

/-- The `.meta.json` record built by `page_meta`. -/
structure PageMeta where
  company_name : Str
  source_url : Str
  crawled_at : Str
  http_status : Nat
  title : Str
  canonical : Str
  robots : Str
  content_sha256 : Str
  content_length : Nat
  parser : Str
  version : Nat
deriving DecidableEq, Repr

/-- `page_meta(html, url, company_name, status)`: title (truncated to 400),
canonical link resolved against the page URL (falling back to the URL),
robots meta, and the fingerprint — SHA-256 and byte length of
`html.encode("utf-8")`. -/
def page_meta (env : Env) (html url company_name : Str) (status : Nat) : PageMeta :=
  let title := env.titleOf html
  let canonical :=
    match env.canonicalOf html with
    | some href => urljoin url href
    | none => []
  let robots := (env.robotsMetaOf html).getD []
  let content_bytes := utf8Encode html
  { company_name := company_name
    source_url := url
    crawled_at := env.now
    http_status := status
    title := title.take 400
    canonical := if canonical = [] then url else canonical
    robots := robots
    content_sha256 := env.sha256hex content_bytes
    content_length := content_bytes.length
    parser := env.parserName
    version := 1 }

/-- One line of `pages.jsonl` as written by `save_page`
(`sectionName` models the Python key `section`, a Lean keyword). -/
structure PagesLogEntry where
  company_name : Str
  sectionName : Str
  source_url : Str
  crawled_at : Str
  status : Nat
  bytes : Nat
deriving DecidableEq, Repr

/-- The artifacts `save_page` writes for one section: the raw HTML file, the
clean-text file, the metadata record, and the page-log line. -/
structure SavedPage where
  htmlFileContent : Str
  txtFileContent : Str
  meta : PageMeta
  logLine : PagesLogEntry
deriving DecidableEq, Repr

/-- `save_page(out_dir, section, url, html, company_name, status, fp)`:
writes `<section>.html` with the raw HTML, `<section>.txt` with the cleaned
text, `<section>.meta.json` with `page_meta`, and appends a `pages.jsonl`
line whose `bytes` is the metadata's `content_length`. -/
def save_page (env : Env) (sectionKey url html company_name : Str) (status : Nat) :
    SavedPage :=
  let m := page_meta env html url company_name status
  { htmlFileContent := html
    txtFileContent := clean_text env html
    meta := m
    logLine :=
      { company_name := company_name
        sectionName := sectionKey
        source_url := url
        crawled_at := m.crawled_at
        status := status
        bytes := m.content_length } }

/-! ## Section discoverer (`discover_from_nav`, `try_section`, lines 400-470) -/

/-- The closure `score` of `discover_from_nav`, on a `(url_abs, text)`
candidate.  Python floats are modelled as rationals (see the header note:
the float and rational comparisons provably coincide on the reachable score
values). -/
def score (key : Section) (c : Str × Str) : ℚ :=
  let p := urlparse c.1
  let path := if p.path = [] then "/".toList else p.path
  let t := pyLower c.2
  let pl := pyLower path
  let sc1 : ℚ := if PATTERNS key t then 0 + 3 else 0
  let sc2 := if PATTERNS key pl then sc1 + 2 else sc1
  -- shorter path preferred
  let sc3 := if pl = "/".toList ∨ pl = [] then sc2 - 1 else sc2
  let sc4 := sc3 + max 0 (1 - (1/4 : ℚ) * ((countChar '/' pl - 1 : ℕ) : ℚ))
  -- avoid query/fragment
  let sc5 := if p.query ≠ [] then sc4 - 1/2 else sc4
  if p.fragment ≠ [] then sc5 - 1/5 else sc5

/-- Stable insertion preserving input order among equal keys: the element
goes before the first entry whose key is `≤` its own.  `foldr` over the
input therefore reproduces Python `sorted(xs, key=score, reverse=True)`
(Timsort is stable; `reverse=True` keeps tied elements in input order). -/
def insertDescBy (f : α → ℚ) (x : α) : List α → List α
  | [] => [x]
  | y :: ys => if f y ≤ f x then x :: y :: ys else y :: insertDescBy f x ys

/-- Stable sort, descending by `f`. -/
def sortDescBy (f : α → ℚ) (xs : List α) : List α := xs.foldr (insertDescBy f) []

/-- The `seen`-set deduplication loop of `discover_from_nav` (keep first
occurrence). -/
def dedupSeen (seen : List Str) : List Str → List Str
  | [] => []
  | u :: us => if u ∈ seen then dedupSeen seen us else u :: dedupSeen (u :: seen) us

/-- The anchor-collection loop of `discover_from_nav`: keep only
same-domain, non-spam, robots-allowed absolute targets (with the robots
lookups logged). -/
def collectCandidates (env : Env) (base_url : Str) : List Anchor → M (List (Str × Str))
  | [] => ([], [])
  | a :: rest =>
    let href := pyStrip a.href
    let text := pyStrip a.text
    let url_abs := urljoin (base_url ++ "/".toList) href
    if !same_domain url_abs base_url then collectCandidates env base_url rest
    else if SPAM_PATH_search url_abs then collectCandidates env base_url rest
    else
      -- check robots.txt before adding to candidates
      let (ok, l1) := can_fetch env url_abs
      let (cs, l2) := collectCandidates env base_url rest
      (if ok then (url_abs, text) :: cs else cs, l1 ++ l2)

/-- `discover_from_nav(base_url, homepage_html, section_key)`: collect
candidate links from homepage anchors, rank by the regex score, deduplicate
by URL, cap at 8. -/
def discover_from_nav (env : Env) (base_url homepage_html : Str) (key : Section) :
    M (List Str) :=
  let (candidates, l) := collectCandidates env base_url (env.anchorsOf homepage_html)
  let ranked := sortDescBy (score key) candidates
  let out := dedupSeen [] (ranked.map Prod.fst)
  (out.take 8, l)

/-- The slug loop of `try_section`: append each slug URL not already tried,
not spam, and robots-allowed (`can_fetch` is only consulted when the first
two tests pass, matching the short-circuit `and`). -/
def buildTried (env : Env) (base_url : Str) : List Str → List Str → M (List Str)
  | [], tried => (tried, [])
  | slug :: rest, tried =>
    let url := if slug = [] then base_url else urljoin (base_url ++ "/".toList) slug
    if url ∈ tried then buildTried env base_url rest tried
    else if SPAM_PATH_search url then buildTried env base_url rest tried
    else
      let (ok, l1) := can_fetch env url
      let (res, l2) := buildTried env base_url rest (if ok then tried ++ [url] else tried)
      (res, l1 ++ l2)

/-- `tried.extend(u for u in nav if u not in tried)`: the membership test
sees the elements appended so far, so the list grows as the generator is
consumed. -/
def extendNotMem (tried : List Str) : List Str → List Str
  | [] => tried
  | u :: us => if u ∈ tried then extendNotMem tried us else extendNotMem (tried ++ [u]) us

/-- The full candidate list `tried` that `try_section` iterates:
canonical slugs first, then nav-discovered URLs not already present. -/
def try_section_candidates (env : Env) (base_url homepage_html : Str) (key : Section) :
    M (List Str) :=
  let (slugTried, l1) := buildTried env base_url (CANDIDATE_SLUGS key) []
  let (nav, l2) := discover_from_nav env base_url homepage_html key
  (extendNotMem slugTried nav, l1 ++ l2)

/-- The fetch loop of `try_section`: the first candidate that fetches as
HTML-OK and same-domain wins; robots denials and exceptions advance to the
next candidate. -/
def firstSuccess (env : Env) (base_url : Str) : List Str → M (Option (Str × Str × Nat))
  | [] => (none, [])
  | u :: us =>
    let (fr, l1) := fetch env u true
    match fr with
    | .ok r =>
      if is_html_ok r && same_domain r.url base_url then
        (some (rstripSlash r.url, r.text, r.status_code), l1)
      else
        let (res, l2) := firstSuccess env base_url us
        (res, l1 ++ l2)
    | _ =>
      let (res, l2) := firstSuccess env base_url us
      (res, l1 ++ l2)

/-- `try_section(base_url, homepage_html, section_key)`: returns
`(r.url.rstrip("/"), r.text, r.status_code)` of the first accepted
candidate, or `none` (the source's `(None, None, None)`). -/
def try_section (env : Env) (base_url homepage_html : Str) (key : Section) :
    M (Option (Str × Str × Nat)) :=
  let (tried, l1) := try_section_candidates env base_url homepage_html key
  let (res, l2) := firstSuccess env base_url tried
  (res, l1 ++ l2)

/-! ## Adapters and orchestrator (`scraper.py` lines 513-675) -/

/-- Python `a or b` on an optional string: `b` when `a` is `None` or empty. -/
def orStr (a : Option Str) (b : Str) : Str :=
  match a with
  | some s => if s = [] then b else s
  | none => b

/-- The duck-typed company dict accepted by `scrape_company` (each key
optional). -/
structure CompanyDict where
  company_id : Option Str := none
  company_name : Option Str := none
  website : Option Str := none
  homepage : Option Str := none
  source_url : Option Str := none
  url : Option Str := none

/-- A normalized company record (`_resolve_company_inputs` output). -/
structure CompanyRecord where
  company_id : Str
  company_name : Str
  website : Str
deriving DecidableEq, Repr

/-- `_resolve_company_inputs(company_id, company, overrides)`:
field-priority resolution, optional override (normalized with a live GET),
seed-index fallback when no website is known, scheme defaulting and
trailing-slash stripping.  The seed index itself is loaded upstream
(spec §6); its contents are the environment's `seedIndex`. -/
def _resolve_company_inputs (env : Env) (company_id : Option Str)
    (company : CompanyDict) (overrides : Str → Option Str) : M CompanyRecord :=
  let cid0 := orStr company.company_id
      (orStr company_id (company.company_name.getD []))
  let cid := slugify cid0
  let name := orStr company.company_name (orStr company_id cid)
  let website0 := orStr company.website (orStr company.homepage
      (orStr company.source_url (orStr company.url [])))
  let (website1, log1) :=
    match overrides cid with
    | some ov => if ov = [] then (website0, []) else normalize_base env ov
    | none => (website0, [])
  let (name2, website2) :=
    if website1 = [] then
      match env.seedIndex cid with
      | some entry =>
        (entry.company_name,
         if entry.website = [] then website1 else entry.website)
      | none => (name, website1)
    else (name, website1)
  let website3 := pyStrip website2
  let website4 :=
    if website3 ≠ [] ∧ ¬ startsWith website3 "http".toList then
      "https://".toList ++ lstripSlash website3
    else website3
  let website := rstripSlash website4
  ({ company_id := if cid = [] then "company".toList else cid
     company_name :=
       if name2 = [] then (if cid = [] then "company".toList else cid) else name2
     website := website }, log1)

/-- `ScrapeCompanyError`: expected scrape failures, with a typed reason. -/
structure ScrapeCompanyError where
  company_id : Str
  message : Str
  reason : Str
deriving DecidableEq, Repr

/-- `check_robots_for_company`: one robots.txt read for the company's
domain, then allowance checks on the homepage and four common paths; the
result is only printed, never acted on, so just the status is kept. -/
def check_robots_for_company (env : Env) (base_url : Str) : M Str :=
  let (rp, l) := getRobotsParser env base_url
  let homepage_allowed := rp.can_fetch UA base_url
  let test_paths := [urljoin base_url "/about".toList, urljoin base_url "/product".toList,
                     urljoin base_url "/careers".toList, urljoin base_url "/blog".toList]
  let paths_allowed := test_paths.map (fun p => rp.can_fetch UA p)
  let status :=
    if homepage_allowed ∧ paths_allowed.any id then "allowed".toList
    else if ¬ homepage_allowed then "disallowed".toList
    else "partially_allowed".toList
  (status, l)

/-- The `sections` mapping of a success manifest. -/
structure Sections where
  homepage : Str
  about : Option Str
  product : Option Str
  careers : Option Str
  blog : Option Str
deriving DecidableEq, Repr

/-- The dict `_scrape_company_to_dir` returns on success (`manifest_path`,
a filesystem path, is elided along with all file writes). -/
structure SuccessResult where
  company_id : Str
  company_name : Str
  sections : Sections
  status : Str
deriving DecidableEq, Repr

/-- `if url and html:` — a section is recorded only when `try_section`
returned a truthy URL and truthy HTML. -/
def manifestEntry (res : Option (Str × Str × Nat)) : Option Str :=
  match res with
  | some (u, h, _) => if u ≠ [] ∧ h ≠ [] then some u else none
  | none => none

/-- `_scrape_company_to_dir(record, out_dir)`: the per-company state
machine.  Exception messages are modelled up to the interpolated
third-party exception text. -/
def _scrape_company_to_dir (env : Env) (record : CompanyRecord) :
    M (Except ScrapeCompanyError SuccessResult) :=
  let cid := record.company_id
  let name := record.company_name
  let base_url := record.website
  if base_url = [] then
    (.error ⟨cid, "cannot scrape without a website URL".toList,
             "missing_website".toList⟩, [])
  else
    let host := pyLower (urlparse base_url).netloc
    if blocked host then
      (.error ⟨cid, "seed website blocked (".toList ++ base_url ++ ")".toList,
               "blocked_host".toList⟩, [])
    else
      let (_robots_status, l0) := check_robots_for_company env base_url
      let (fres, l1) := fetch env base_url true
      match fres with
      | .robotsDisallowed =>
        (.error ⟨cid, "homepage fetch failed (".toList ++ base_url ++ ")".toList,
                 "homepage_fetch_failed".toList⟩, l0 ++ l1)
      | .requestFailed =>
        (.error ⟨cid, "homepage fetch failed (".toList ++ base_url ++ ")".toList,
                 "homepage_fetch_failed".toList⟩, l0 ++ l1)
      | .ok r0 =>
        if ¬ is_html_ok r0 then
          (.error ⟨cid, "homepage not HTML/200 (".toList ++ base_url ++
                   ") status=".toList ++ Nat.toDigits 10 r0.status_code,
                   "homepage_http_error".toList⟩, l0 ++ l1)
        else
          let homepage_final := rstripSlash r0.url
          let final_host := pyLower (urlparse homepage_final).netloc
          if blocked final_host then
            (.error ⟨cid, "homepage resolved to blocked host (".toList ++
                     homepage_final ++ ")".toList,
                     "blocked_redirect".toList⟩, l0 ++ l1)
          else
            let homepage_html := r0.text
            let _hp := save_page env "homepage".toList homepage_final homepage_html
                name r0.status_code
            let (resA, lA) := try_section env homepage_final homepage_html .about
            let _sA := (manifestEntry resA).map (fun u =>
              save_page env "about".toList u ((resA.map (fun x => x.2.1)).getD [])
                name ((resA.map (fun x => x.2.2)).getD 0))
            let (resP, lP) := try_section env homepage_final homepage_html .product
            let _sP := (manifestEntry resP).map (fun u =>
              save_page env "product".toList u ((resP.map (fun x => x.2.1)).getD [])
                name ((resP.map (fun x => x.2.2)).getD 0))
            let (resC, lC) := try_section env homepage_final homepage_html .careers
            let _sC := (manifestEntry resC).map (fun u =>
              save_page env "careers".toList u ((resC.map (fun x => x.2.1)).getD [])
                name ((resC.map (fun x => x.2.2)).getD 0))
            let (resB, lB) := try_section env homepage_final homepage_html .blog
            let _sB := (manifestEntry resB).map (fun u =>
              save_page env "blog".toList u ((resB.map (fun x => x.2.1)).getD [])
                name ((resB.map (fun x => x.2.2)).getD 0))
            (.ok { company_id := cid
                   company_name := name
                   sections :=
                     { homepage := homepage_final
                       about := manifestEntry resA
                       product := manifestEntry resP
                       careers := manifestEntry resC
                       blog := manifestEntry resB }
                   status := "success".toList },
             l0 ++ l1 ++ lA ++ lP ++ lC ++ lB)

/-- What `scrape_company` returns: the success dict, or the failure
manifest (`status="failed"` with `reason`, `message`, `crawled_at`). -/
inductive ScrapeReturn where
  | success (r : SuccessResult) : ScrapeReturn
  | failure (company_id company_name reason message crawled_at : Str) : ScrapeReturn
deriving DecidableEq, Repr

/-- `scrape_company(...)`: resolve inputs, run the per-company crawl, and
convert any `ScrapeCompanyError` into a failure manifest.  The `ValueError`
raised when no output directory is supplied at all is outside the model:
every claim quantifies over runs given an output directory, and file paths
do not influence any returned value. -/
def scrape_company (env : Env) (company_id : Option Str) (company : CompanyDict)
    (overrides : Str → Option Str) : M ScrapeReturn :=
  let (record, lr) := _resolve_company_inputs env company_id company overrides
  let (res, ls) := _scrape_company_to_dir env record
  match res with
  | .ok s => (.success s, lr ++ ls)
  | .error e =>
    (.failure record.company_id record.company_name e.reason e.message env.now,
     lr ++ ls)

/-! # Theorems -/

/-! ## Generic helper lemmas -/

theorem startsWithList_iff (a b : Str) : startsWithList a b = true ↔ b <+: a := by
  induction b generalizing a with
  | nil => simp [startsWithList]
  | cons d n ih =>
    cases a with
    | nil => simp [startsWithList]
    | cons c h =>
      simp [startsWithList, ih, List.cons_prefix_cons]

/-! ## Shared concrete environment for witnesses -/

/-- A minimal environment: robots parsed as allow-all, no pages, no anchors,
trivial HTML-parser and hash models. -/
def witnessEnv : Env :=
  { robotsFetch := fun _ => .parsed (fun _ _ => true)
    pageFetch := fun _ => none
    anchorsOf := fun _ => []
    titleOf := fun _ => []
    canonicalOf := fun _ => none
    robotsMetaOf := fun _ => none
    strippedTextOf := fun _ => []
    sha256hex := fun _ => []
    now := []
    parserName := "bs4".toList
    seedIndex := fun _ => none }

/-- The "no overrides configured" map. -/
def noOverrides : Str → Option Str := fun _ => none

/-! ## C1 — robots fetch failure and `can_fetch` -/

/-- An environment in which every domain's `robots.txt` fetch raises
(network error, timeout, DNS failure, or undecodable body). -/
def envRobotsRaise : Env := { witnessEnv with robotsFetch := fun _ => .raise }

/-- An environment in which every domain's `robots.txt` fetch fails with
HTTP 500. -/
def envRobots500 : Env := { witnessEnv with robotsFetch := fun _ => .httpError 500 }

/-- C1: REFUTED — the code contradicts both the spec and its own comments.
When the `robots.txt` fetch raises, `getRobotsParser` builds a fallback
`RobotFileParser()` and never calls `read()` on it; CPython's `can_fetch`
returns `False` for every URL on an unread parser (`last_checked == 0`), so
the module-level `can_fetch` returns `false` for every URL on such a
domain — deny-all, not the claimed allow-all.  The same holds when the
fetch fails with a 5xx status (`read()` sets no flag).  (Observed on the
real scraper with a mocked network: `can_fetch` returns `False` after a
robots fetch error.) -/
theorem c1_robots_fetch_failure_denies_all :
    (∀ url, canFetchB envRobotsRaise url = false) ∧
    (∀ url, canFetchB envRobots500 url = false) :=
  ⟨fun _ => rfl, fun _ => rfl⟩

/-! ## C8 — content fingerprint -/

/-- C8: for every page artifact, `content_sha256` is the hash of the UTF-8
encoding of exactly the string written to the `.html` file (the raw HTML,
never the cleaned text), and `content_length` (and the page-log `bytes`)
is the byte length of that encoding. -/
theorem c8_fingerprint_over_raw_html_bytes (env : Env)
    (sect url html name : Str) (status : Nat) :
    (save_page env sect url html name status).htmlFileContent = html ∧
    (save_page env sect url html name status).meta.content_sha256 =
      env.sha256hex (utf8Encode (save_page env sect url html name status).htmlFileContent) ∧
    (save_page env sect url html name status).meta.content_length =
      (utf8Encode (save_page env sect url html name status).htmlFileContent).length ∧
    (save_page env sect url html name status).logLine.bytes =
      (utf8Encode (save_page env sect url html name status).htmlFileContent).length :=
  ⟨rfl, rfl, rfl, rfl⟩

/-! ## C10 — the block-list test -/

/-- C10: `blocked h` holds iff the lowercased host is exactly one of the four
blocked hosts or ends with a dot followed by one of them (so every subdomain
of a blocked host is rejected as well). -/
theorem c10_blocked_iff (h : Str) :
    blocked h = true ↔
      (pyLower h = "forbes.com".toList ∨ pyLower h = "www.forbes.com".toList ∨
       pyLower h = "w1.buysub.com".toList ∨ pyLower h = "buysub.com".toList ∨
       ".forbes.com".toList <:+ pyLower h ∨ ".www.forbes.com".toList <:+ pyLower h ∨
       ".w1.buysub.com".toList <:+ pyLower h ∨ ".buysub.com".toList <:+ pyLower h) := by
  have hrev : ∀ (b s : Str), startsWithList s.reverse ('.' :: b).reverse = true ↔
      ('.' :: b) <:+ s := by
    intro b s
    rw [startsWithList_iff, List.reverse_prefix]
  simp only [blocked, BLOCKED_HOSTS, List.any_cons, List.any_nil,
    Bool.or_eq_true, decide_eq_true_eq, hrev, Bool.false_eq_true, or_false,
    false_or, or_assoc]
  exact Iff.rfl

/-! ## C2 — the orchestrator boundary -/

/-- Case analysis of `_scrape_company_to_dir`: every run returns either a
success dict with `status="success"`, or a `ScrapeCompanyError` whose
reason belongs to the closed taxonomy. -/
theorem scrape_to_dir_cases (env : Env) (record : CompanyRecord) :
    (∃ s, (_scrape_company_to_dir env record).1 = .ok s ∧
      s.status = "success".toList) ∨
    (∃ e, (_scrape_company_to_dir env record).1 = .error e ∧
      (e.reason = "missing_website".toList ∨ e.reason = "blocked_host".toList ∨
       e.reason = "homepage_fetch_failed".toList ∨
       e.reason = "homepage_http_error".toList ∨
       e.reason = "blocked_redirect".toList)) := by
  unfold _scrape_company_to_dir
  dsimp only
  repeat' split
  all_goals
    first
      | exact Or.inl ⟨_, rfl, rfl⟩
      | exact Or.inr ⟨_, rfl, by simp⟩

/-- Unfolding of `scrape_company` in projection form (definitional, by
structure eta for pairs). -/
theorem scrape_company_eq (env : Env) (cid : Option Str) (comp : CompanyDict)
    (ov : Str → Option Str) :
    scrape_company env cid comp ov =
      (match (_scrape_company_to_dir env (_resolve_company_inputs env cid comp ov).1).1 with
       | .ok s =>
         (ScrapeReturn.success s,
          (_resolve_company_inputs env cid comp ov).2 ++
            (_scrape_company_to_dir env (_resolve_company_inputs env cid comp ov).1).2)
       | .error e =>
         (ScrapeReturn.failure (_resolve_company_inputs env cid comp ov).1.company_id
            (_resolve_company_inputs env cid comp ov).1.company_name
            e.reason e.message env.now,
          (_resolve_company_inputs env cid comp ov).2 ++
            (_scrape_company_to_dir env (_resolve_company_inputs env cid comp ov).1).2)) := rfl

/-- CPython 3.11 `urlsplit` has exactly two raise sites: after netloc
splitting, `ValueError("Invalid IPv6 URL")` when the netloc contains `[`
without `]` or `]` without `[` (urllib/parse.py:474), and a `_checknetloc`
`ValueError` that can fire only for non-ASCII netlocs.  The total
`urlsplitD` above returns a value instead of raising; this predicate marks
the (ASCII) inputs on which the real library raises, translated from the
source of the check. -/
def urlsplitRaisesInvalidIPv6 (u : Str) : Bool :=
  let rest := (splitScheme u).2
  if rest.take 2 = "//".toList then
    let netloc := (rest.drop 2).takeWhile isNetlocChar
    (decide ('[' ∈ netloc) && !(decide (']' ∈ netloc))) ||
    (decide (']' ∈ netloc) && !(decide ('[' ∈ netloc)))
  else false

/-- The first URL-parse call on the `scrape_company` path that sits outside
every handler: `_scrape_company_to_dir` evaluates `urlparse(base_url)`
(scraper.py:580) right after the non-empty check, and `scrape_company`
catches only `ScrapeCompanyError` — so when the resolved website makes
`urlsplit` raise, the `ValueError` escapes `scrape_company`'s boundary.
This predicate states that escape condition.  (Further unguarded
`urljoin`/`urlparse` calls — on anchor hrefs at scraper.py:407, canonical
hrefs at scraper.py:241, the post-redirect URL at scraper.py:607-608 —
give additional escape routes not captured by this predicate.) -/
def scrape_company_raisesValueError (env : Env) (company_id : Option Str)
    (comp : CompanyDict) (ov : Str → Option Str) : Bool :=
  let record := (_resolve_company_inputs env company_id comp ov).1
  decide (record.website ≠ []) && urlsplitRaisesInvalidIPv6 record.website

/-- A company whose seed website has an unbalanced bracket in its host. -/
def compBracket : CompanyDict :=
  { company_id := some "bracket-co".toList
    company_name := some "Bracket Co".toList
    website := some "https://[x".toList }

/-- C2 counterexample: the claim "`scrape_company` never raises past its
boundary and always returns a manifest" is false on the code.  The company
website `https://[x` passes through `_resolve_company_inputs` unchanged
(only strip/prefix/rstrip apply) and reaches the unguarded
`urlparse(base_url)` at scraper.py:580, where CPython's `urlsplit` raises
`ValueError("Invalid IPv6 URL")` — no handler between there and the caller
catches it.  (Reproduced on the real scraper with a mocked network: the
`ValueError` escapes `scrape_company`; a nav anchor href `//[x/about`
escapes the same way via scraper.py:407.) -/
theorem c2_valueerror_escape_counterexample :
    (_resolve_company_inputs witnessEnv none compBracket noOverrides).1.website =
      "https://[x".toList ∧
    urlsplitRaisesInvalidIPv6 "https://[x".toList = true ∧
    scrape_company_raisesValueError witnessEnv none compBracket noOverrides = true :=
  ⟨by decide, by decide, by decide⟩

/-- ASCII and free of square brackets: on such URL strings CPython's
`urlsplit` never raises (both raise sites need a bracket or a non-ASCII
character in the netloc), and neither does it on anything `urljoin` builds
from them — the output characters come from the inputs plus ASCII literal
delimiters — so the total embedding is exact on crawls whose URL inputs
all satisfy this predicate. -/
def urlsplitSafe (s : Str) : Bool :=
  s.all (fun c => c.toNat < 128) && decide ('[' ∉ s) && decide (']' ∉ s)

/-- C2 amended: `scrape_company` never lets a `ScrapeCompanyError` escape,
and on every crawl whose URL inputs are parse-safe (the resolved seed
website, every response's final URL, every anchor href and every canonical
href ASCII and bracket-free — so `urlsplit` can never raise anywhere in
the run), it returns a manifest: success, or failed with a reason from the
closed taxonomy `missing_website`, `blocked_host`,
`homepage_fetch_failed`, `homepage_http_error`, `blocked_redirect`.
Without the proviso the original claim is false (see the counterexample):
a URL-parse `ValueError` escapes the boundary. -/
theorem c2_amended_manifest_taxonomy_on_parsable_urls (env : Env)
    (cid : Option Str) (comp : CompanyDict) (ov : Str → Option Str)
    (_hw : urlsplitSafe (_resolve_company_inputs env cid comp ov).1.website = true)
    (_hr : ∀ u r, env.pageFetch u = some r → urlsplitSafe r.url = true)
    (_ha : ∀ html a, a ∈ env.anchorsOf html → urlsplitSafe a.href = true)
    (_hcan : ∀ html h, env.canonicalOf html = some h → urlsplitSafe h = true) :
    (∃ s, (scrape_company env cid comp ov).1 = .success s ∧
      s.status = "success".toList) ∨
    (∃ a b r m t, (scrape_company env cid comp ov).1 = .failure a b r m t ∧
      (r = "missing_website".toList ∨ r = "blocked_host".toList ∨
       r = "homepage_fetch_failed".toList ∨ r = "homepage_http_error".toList ∨
       r = "blocked_redirect".toList)) := by
  rcases scrape_to_dir_cases env (_resolve_company_inputs env cid comp ov).1 with
    ⟨s, hs, hst⟩ | ⟨e, he, hrr⟩
  · left
    refine ⟨s, ?_, hst⟩
    rw [scrape_company_eq]
    simp only [hs]
  · right
    refine ⟨(_resolve_company_inputs env cid comp ov).1.company_id,
      (_resolve_company_inputs env cid comp ov).1.company_name,
      e.reason, e.message, env.now, ?_, hrr⟩
    rw [scrape_company_eq]
    simp only [he]

/-- The crawl target of the C2 witness. -/
def compC2 : CompanyDict :=
  { company_id := some "acme-co".toList
    company_name := some "Acme Co".toList
    website := some "https://acme.example".toList }

/-- Witness for the amended C2 at a concrete parse-safe crawl. -/
theorem c2_amended_manifest_taxonomy_witness :
    (urlsplitSafe (_resolve_company_inputs witnessEnv none compC2 noOverrides).1.website
        = true ∧
     (∀ u r, witnessEnv.pageFetch u = some r → urlsplitSafe r.url = true) ∧
     (∀ html a, a ∈ witnessEnv.anchorsOf html → urlsplitSafe a.href = true) ∧
     (∀ html h, witnessEnv.canonicalOf html = some h → urlsplitSafe h = true)) ∧
    ((∃ s, (scrape_company witnessEnv none compC2 noOverrides).1 = .success s ∧
      s.status = "success".toList) ∨
    (∃ a b r m t,
      (scrape_company witnessEnv none compC2 noOverrides).1 = .failure a b r m t ∧
      (r = "missing_website".toList ∨ r = "blocked_host".toList ∨
       r = "homepage_fetch_failed".toList ∨ r = "homepage_http_error".toList ∨
       r = "blocked_redirect".toList))) := by
  have h1 : urlsplitSafe
      (_resolve_company_inputs witnessEnv none compC2 noOverrides).1.website = true := by
    decide
  have h2 : ∀ u r, witnessEnv.pageFetch u = some r → urlsplitSafe r.url = true :=
    fun u r h => Option.noConfusion h
  have h3 : ∀ html a, a ∈ witnessEnv.anchorsOf html → urlsplitSafe a.href = true :=
    fun html a h => absurd h (List.not_mem_nil a)
  have h4 : ∀ html h, witnessEnv.canonicalOf html = some h → urlsplitSafe h = true :=
    fun html h hc => Option.noConfusion hc
  exact ⟨⟨h1, h2, h3, h4⟩,
    c2_amended_manifest_taxonomy_on_parsable_urls witnessEnv none compC2 noOverrides
      h1 h2 h3 h4⟩

/-! ## C9 — blocked seed host fails fast, with zero HTTP requests -/

/-- C9: when no override URL is configured and the resolved seed website's
host is on the permanent block list, `scrape_company` returns the
`blocked_host` failure manifest and the request log is empty: no homepage
fetch and no robots.txt fetch is issued. -/
theorem c9_blocked_host_no_fetch (env : Env) (cid : Option Str)
    (comp : CompanyDict)
    (hw : (_resolve_company_inputs env cid comp noOverrides).1.website ≠ [])
    (hb : blocked (pyLower
      (urlparse (_resolve_company_inputs env cid comp noOverrides).1.website).netloc)
        = true) :
    scrape_company env cid comp noOverrides =
      (.failure (_resolve_company_inputs env cid comp noOverrides).1.company_id
        (_resolve_company_inputs env cid comp noOverrides).1.company_name
        "blocked_host".toList
        ("seed website blocked (".toList ++
          (_resolve_company_inputs env cid comp noOverrides).1.website ++ ")".toList)
        env.now, []) := by
  have hlog : (_resolve_company_inputs env cid comp noOverrides).2 = [] := rfl
  have hdir : _scrape_company_to_dir env
      (_resolve_company_inputs env cid comp noOverrides).1 =
      (.error ⟨(_resolve_company_inputs env cid comp noOverrides).1.company_id,
        "seed website blocked (".toList ++
          (_resolve_company_inputs env cid comp noOverrides).1.website ++ ")".toList,
        "blocked_host".toList⟩, []) := by
    unfold _scrape_company_to_dir
    dsimp only
    rw [if_neg hw, if_pos hb]
  rw [scrape_company_eq, hdir, hlog]
  simp

/-- A company whose seed website is the blocked host `w1.buysub.com`. -/
def comp9 : CompanyDict :=
  { company_id := some "bad-corp".toList
    company_name := some "Bad Corp".toList
    website := some "https://w1.buysub.com".toList }

/-- Witness for C9 at a concrete blocked-host company. -/
theorem c9_blocked_host_no_fetch_witness :
    ((_resolve_company_inputs witnessEnv none comp9 noOverrides).1.website ≠ [] ∧
     blocked (pyLower
       (urlparse (_resolve_company_inputs witnessEnv none comp9 noOverrides).1.website).netloc)
         = true) ∧
    scrape_company witnessEnv none comp9 noOverrides =
      (.failure (_resolve_company_inputs witnessEnv none comp9 noOverrides).1.company_id
        (_resolve_company_inputs witnessEnv none comp9 noOverrides).1.company_name
        "blocked_host".toList
        ("seed website blocked (".toList ++
          (_resolve_company_inputs witnessEnv none comp9 noOverrides).1.website ++ ")".toList)
        witnessEnv.now, []) :=
  ⟨⟨by decide, by decide⟩,
   c9_blocked_host_no_fetch witnessEnv none comp9 (by decide) (by decide)⟩

/-! ## C4 — spam-path exclusion -/

/-- The crawl target of the C4 counterexample: a company whose (legitimate)
seed website already contains the substring `offer`, as real seed rows such
as Offerpad do. -/
def comp4 : CompanyDict :=
  { company_id := some "offerpad".toList
    company_name := some "Offerpad".toList
    website := some "https://www.offerpad.com".toList }

/-- Environment for the C4 counterexample: the homepage responds 200 HTML
with no anchors; every other fetch fails. -/
def env4 : Env :=
  { witnessEnv with
    pageFetch := fun u =>
      if u = "https://www.offerpad.com".toList then
        some ⟨200, "text/html".toList, "https://www.offerpad.com".toList,
              "<html></html>".toList⟩
      else none }

/-- C4 counterexample: a crawl produces a success manifest whose resolved
homepage URL matches `SPAM_PATH` (`offer` is a substring), because neither
the seed URL nor any post-redirect final URL is ever spam-checked — only
pre-fetch candidate URLs are.  (Reproduced on the real scraper with a
mocked network.) -/
theorem c4_spam_url_in_manifest_counterexample :
    (scrape_company env4 none comp4 noOverrides).1 =
      .success
        { company_id := "offerpad".toList
          company_name := "Offerpad".toList
          sections :=
            { homepage := "https://www.offerpad.com".toList
              about := none, product := none, careers := none, blog := none }
          status := "success".toList } ∧
    SPAM_PATH_search "https://www.offerpad.com".toList = true :=
  ⟨rfl, rfl⟩

theorem mem_extendNotMem {x : Str} :
    ∀ (l t : List Str), x ∈ extendNotMem t l → x ∈ t ∨ x ∈ l := by
  intro l
  induction l with
  | nil => intro t h; exact Or.inl h
  | cons u us ih =>
    intro t h
    unfold extendNotMem at h
    by_cases hu : u ∈ t
    · rw [if_pos hu] at h
      rcases ih t h with h1 | h1
      · exact Or.inl h1
      · exact Or.inr (List.mem_cons_of_mem _ h1)
    · rw [if_neg hu] at h
      rcases ih (t ++ [u]) h with h1 | h1
      · rcases List.mem_append.1 h1 with h2 | h2
        · exact Or.inl h2
        · simp at h2
          subst h2
          exact Or.inr (List.mem_cons_self _ _)
      · exact Or.inr (List.mem_cons_of_mem _ h1)

theorem buildTried_mem (env : Env) (base : Str) {x : Str} :
    ∀ (slugs : List Str) (acc : List Str),
      x ∈ (buildTried env base slugs acc).1 →
      x ∈ acc ∨ SPAM_PATH_search x = false := by
  intro slugs
  induction slugs with
  | nil => intro acc h; exact Or.inl h
  | cons slug rest ih =>
    intro acc h
    unfold buildTried at h
    dsimp only at h
    by_cases h1 : (if slug = [] then base else urljoin (base ++ "/".toList) slug) ∈ acc
    · rw [if_pos h1] at h
      exact ih acc h
    · rw [if_neg h1] at h
      by_cases h2 :
          SPAM_PATH_search (if slug = [] then base else urljoin (base ++ "/".toList) slug)
            = true
      · rw [if_pos h2] at h
        exact ih acc h
      · rw [if_neg h2] at h
        rcases ih _ h with h3 | h3
        · by_cases hok :
              (can_fetch env
                (if slug = [] then base else urljoin (base ++ "/".toList) slug)).1 = true
          · rw [if_pos hok] at h3
            rcases List.mem_append.1 h3 with h4 | h4
            · exact Or.inl h4
            · simp at h4
              subst h4
              exact Or.inr (Bool.not_eq_true _ ▸ h2)
          · rw [if_neg hok] at h3
            exact Or.inl h3
        · exact Or.inr h3

theorem collectCandidates_mem (env : Env) (base : Str) {p : Str × Str} :
    ∀ (anchors : List Anchor),
      p ∈ (collectCandidates env base anchors).1 → SPAM_PATH_search p.1 = false := by
  intro anchors
  induction anchors with
  | nil => intro h; cases h
  | cons a rest ih =>
    intro h
    unfold collectCandidates at h
    dsimp only at h
    split at h
    · exact ih h
    · split at h
      · exact ih h
      · next h2 =>
        dsimp only at h
        split at h
        · rcases List.mem_cons.1 h with h3 | h3
          · subst h3
            simp only [Bool.not_eq_true] at h2
            exact h2
          · exact ih h3
        · exact ih h

theorem mem_insertDescBy {α : Type} (f : α → ℚ) (a x : α) :
    ∀ l, x ∈ insertDescBy f a l → x = a ∨ x ∈ l := by
  intro l
  induction l with
  | nil => intro h; simpa [insertDescBy] using h
  | cons y ys ih =>
    intro h
    unfold insertDescBy at h
    by_cases hc : f y ≤ f a
    · rw [if_pos hc] at h
      rcases List.mem_cons.1 h with h1 | h1
      · exact Or.inl h1
      · exact Or.inr h1
    · rw [if_neg hc] at h
      rcases List.mem_cons.1 h with h1 | h1
      · exact Or.inr (h1 ▸ List.mem_cons_self _ _)
      · rcases ih h1 with h2 | h2
        · exact Or.inl h2
        · exact Or.inr (List.mem_cons_of_mem _ h2)

theorem mem_sortDescBy {α : Type} (f : α → ℚ) (x : α) :
    ∀ l, x ∈ sortDescBy f l → x ∈ l := by
  intro l
  induction l with
  | nil => intro h; exact h
  | cons y ys ih =>
    intro h
    rcases mem_insertDescBy f y x (sortDescBy f ys) h with h1 | h1
    · exact h1 ▸ List.mem_cons_self _ _
    · exact List.mem_cons_of_mem _ (ih h1)

theorem mem_dedupSeen {x : Str} :
    ∀ (l seen : List Str), x ∈ dedupSeen seen l → x ∈ l := by
  intro l
  induction l with
  | nil => intro seen h; simp [dedupSeen] at h
  | cons u us ih =>
    intro seen h
    unfold dedupSeen at h
    by_cases hu : u ∈ seen
    · rw [if_pos hu] at h
      exact List.mem_cons_of_mem _ (ih seen h)
    · rw [if_neg hu] at h
      rcases List.mem_cons.1 h with h1 | h1
      · exact h1 ▸ List.mem_cons_self _ _
      · exact List.mem_cons_of_mem _ (ih _ h1)

theorem discover_from_nav_mem (env : Env) (base html : Str) (key : Section)
    {u : Str} (h : u ∈ (discover_from_nav env base html key).1) :
    SPAM_PATH_search u = false := by
  unfold discover_from_nav at h
  dsimp only at h
  have h1 := mem_dedupSeen _ _ (List.mem_of_mem_take h)
  rcases List.mem_map.1 h1 with ⟨p, hp, hpu⟩
  have h2 := mem_sortDescBy (score key) p _ hp
  have h3 := collectCandidates_mem env base (env.anchorsOf html) h2
  rw [hpu] at h3
  exact h3

/-- C4 amended: the spam filter applies to the candidate URLs the discoverer
fetches, not to the URLs recorded in the manifest: no URL in the candidate
list tried during section discovery (slug guesses or nav-derived) matches
`SPAM_PATH`.  Resolved manifest URLs are recorded post-redirect and the
homepage URL is never spam-checked, so those can match the pattern (see the
counterexample). -/
theorem c4_amended_candidates_never_spam (env : Env) (base html : Str)
    (key : Section) (u : Str)
    (h : u ∈ (try_section_candidates env base html key).1) :
    SPAM_PATH_search u = false := by
  unfold try_section_candidates at h
  dsimp only at h
  rcases mem_extendNotMem _ _ h with h1 | h1
  · rcases buildTried_mem env base (CANDIDATE_SLUGS key) [] h1 with h2 | h2
    · exact absurd h2 (List.not_mem_nil u)
    · exact h2
  · exact discover_from_nav_mem env base html key h1

/-- Witness for the amended C4 at a concrete candidate list. -/
theorem c4_amended_candidates_never_spam_witness :
    "https://acme.example/about".toList ∈
      (try_section_candidates env4 "https://acme.example".toList [] .about).1 ∧
    SPAM_PATH_search "https://acme.example/about".toList = false :=
  ⟨by decide,
   c4_amended_candidates_never_spam env4 "https://acme.example".toList [] .about
     "https://acme.example/about".toList (by decide)⟩

/-! ## C7 — partial success tolerance -/

/-- Unfolding of `fetch` with `check_robots=True` in projection form
(definitional). -/
theorem fetch_eq_true (env : Env) (url : Str) :
    fetch env url true =
      (if (!(can_fetch env url).1) = true then
        (FetchResult.robotsDisallowed, (can_fetch env url).2)
       else
        match env.pageFetch url with
        | none => (FetchResult.requestFailed, (can_fetch env url).2 ++ [url])
        | some r => (FetchResult.ok r, (can_fetch env url).2 ++ [url])) := rfl

/-- A robots-allowed URL with an available response fetches to `.ok`. -/
theorem fetch_ok_of (env : Env) (url : Str) (r0 : Response)
    (h1 : canFetchB env url = true) (h2 : env.pageFetch url = some r0) :
    (fetch env url true).1 = .ok r0 := by
  rw [fetch_eq_true]
  rw [canFetchB] at h1
  simp [h1, h2]

/-- Unfolding of `_scrape_company_to_dir` in projection form (definitional,
by structure eta for pairs). -/
theorem scrape_to_dir_eq (env : Env) (record : CompanyRecord) :
    _scrape_company_to_dir env record =
      (if record.website = [] then
        (.error ⟨record.company_id, "cannot scrape without a website URL".toList,
          "missing_website".toList⟩, [])
      else if blocked (pyLower (urlparse record.website).netloc) = true then
        (.error ⟨record.company_id,
          "seed website blocked (".toList ++ record.website ++ ")".toList,
          "blocked_host".toList⟩, [])
      else
        match (fetch env record.website true).1 with
        | .robotsDisallowed =>
          (.error ⟨record.company_id,
            "homepage fetch failed (".toList ++ record.website ++ ")".toList,
            "homepage_fetch_failed".toList⟩,
           (check_robots_for_company env record.website).2 ++
             (fetch env record.website true).2)
        | .requestFailed =>
          (.error ⟨record.company_id,
            "homepage fetch failed (".toList ++ record.website ++ ")".toList,
            "homepage_fetch_failed".toList⟩,
           (check_robots_for_company env record.website).2 ++
             (fetch env record.website true).2)
        | .ok r0 =>
          if ¬ is_html_ok r0 = true then
            (.error ⟨record.company_id,
              "homepage not HTML/200 (".toList ++ record.website ++
                ") status=".toList ++ Nat.toDigits 10 r0.status_code,
              "homepage_http_error".toList⟩,
             (check_robots_for_company env record.website).2 ++
               (fetch env record.website true).2)
          else if blocked (pyLower (urlparse (rstripSlash r0.url)).netloc) = true then
            (.error ⟨record.company_id,
              "homepage resolved to blocked host (".toList ++ rstripSlash r0.url ++
                ")".toList,
              "blocked_redirect".toList⟩,
             (check_robots_for_company env record.website).2 ++
               (fetch env record.website true).2)
          else
            (.ok { company_id := record.company_id
                   company_name := record.company_name
                   sections :=
                     { homepage := rstripSlash r0.url
                       about := manifestEntry
                         (try_section env (rstripSlash r0.url) r0.text .about).1
                       product := manifestEntry
                         (try_section env (rstripSlash r0.url) r0.text .product).1
                       careers := manifestEntry
                         (try_section env (rstripSlash r0.url) r0.text .careers).1
                       blog := manifestEntry
                         (try_section env (rstripSlash r0.url) r0.text .blog).1 }
                   status := "success".toList },
             (check_robots_for_company env record.website).2 ++
               (fetch env record.website true).2 ++
               (try_section env (rstripSlash r0.url) r0.text .about).2 ++
               (try_section env (rstripSlash r0.url) r0.text .product).2 ++
               (try_section env (rstripSlash r0.url) r0.text .careers).2 ++
               (try_section env (rstripSlash r0.url) r0.text .blog).2)) := rfl

/-- C7: a company whose homepage fetch succeeds (robots-allowed, responds,
200 HTML, final host not blocked) but all four section discoveries fail
yields overall status success with the homepage URL recorded and `null`
for each of about, product, careers and blog. -/
theorem c7_partial_success_tolerance (env : Env) (cid : Option Str)
    (comp : CompanyDict) (ov : Str → Option Str) (r0 : Response)
    (hw : (_resolve_company_inputs env cid comp ov).1.website ≠ [])
    (hb : blocked (pyLower
      (urlparse (_resolve_company_inputs env cid comp ov).1.website).netloc) = false)
    (hcf : canFetchB env (_resolve_company_inputs env cid comp ov).1.website = true)
    (hpf : env.pageFetch (_resolve_company_inputs env cid comp ov).1.website = some r0)
    (hok : is_html_ok r0 = true)
    (hb2 : blocked (pyLower (urlparse (rstripSlash r0.url)).netloc) = false)
    (hsec : ∀ key, (try_section env (rstripSlash r0.url) r0.text key).1 = none) :
    (scrape_company env cid comp ov).1 =
      .success
        { company_id := (_resolve_company_inputs env cid comp ov).1.company_id
          company_name := (_resolve_company_inputs env cid comp ov).1.company_name
          sections :=
            { homepage := rstripSlash r0.url
              about := none, product := none, careers := none, blog := none }
          status := "success".toList } := by
  have hdir : (_scrape_company_to_dir env (_resolve_company_inputs env cid comp ov).1).1 =
      Except.ok
        { company_id := (_resolve_company_inputs env cid comp ov).1.company_id
          company_name := (_resolve_company_inputs env cid comp ov).1.company_name
          sections :=
            { homepage := rstripSlash r0.url
              about := none, product := none, careers := none, blog := none }
          status := "success".toList } := by
    rw [scrape_to_dir_eq]
    rw [if_neg hw, if_neg (by simp [hb])]
    rw [fetch_ok_of env _ r0 hcf hpf]
    dsimp only
    rw [if_neg (by simp [hok]), if_neg (by simp [hb2])]
    rw [hsec .about, hsec .product, hsec .careers, hsec .blog]
    rfl
  rw [scrape_company_eq]
  simp only [hdir]

/-- The crawl target of the C7 witness. -/
def comp7 : CompanyDict :=
  { company_id := some "acme-co".toList
    company_name := some "Acme Co".toList
    website := some "https://acme.example".toList }

/-- The C7 witness homepage response. -/
def r0w : Response :=
  ⟨200, "text/html".toList, "https://acme.example/".toList, "<html></html>".toList⟩

/-- Environment for the C7 witness: the homepage responds 200 HTML with no
anchors; every other fetch fails, so every section discovery fails. -/
def env7 : Env :=
  { witnessEnv with
    pageFetch := fun u =>
      if u = "https://acme.example".toList then some r0w else none }

/-- Witness for C7 at a concrete company. -/
theorem c7_partial_success_tolerance_witness :
    ((_resolve_company_inputs env7 none comp7 noOverrides).1.website ≠ [] ∧
     blocked (pyLower
       (urlparse (_resolve_company_inputs env7 none comp7 noOverrides).1.website).netloc)
       = false ∧
     canFetchB env7 (_resolve_company_inputs env7 none comp7 noOverrides).1.website = true ∧
     env7.pageFetch (_resolve_company_inputs env7 none comp7 noOverrides).1.website =
       some r0w ∧
     is_html_ok r0w = true ∧
     blocked (pyLower (urlparse (rstripSlash r0w.url)).netloc) = false ∧
     (∀ key, (try_section env7 (rstripSlash r0w.url) r0w.text key).1 = none)) ∧
    (scrape_company env7 none comp7 noOverrides).1 =
      .success
        { company_id := (_resolve_company_inputs env7 none comp7 noOverrides).1.company_id
          company_name := (_resolve_company_inputs env7 none comp7 noOverrides).1.company_name
          sections :=
            { homepage := rstripSlash r0w.url
              about := none, product := none, careers := none, blog := none }
          status := "success".toList } :=
  ⟨⟨by decide, by decide, by decide, by decide, by decide, by decide,
    fun key => by cases key <;> rfl⟩,
   c7_partial_success_tolerance env7 none comp7 noOverrides r0w
     (by decide) (by decide) (by decide) (by decide) (by decide) (by decide)
     (fun key => by cases key <;> rfl)⟩

/-! ## C5 — candidate-list structure: slugs first, then nav -/

theorem dedupSeen_congr {s t : List Str} (h : ∀ x, x ∈ s ↔ x ∈ t) :
    ∀ l, dedupSeen s l = dedupSeen t l := by
  intro l
  induction l generalizing s t h with
  | nil => simp [dedupSeen]
  | cons u us ih =>
    unfold dedupSeen
    by_cases hu : u ∈ s
    · rw [if_pos hu, if_pos ((h u).1 hu)]
      exact ih h
    · rw [if_neg hu, if_neg (fun hc => hu ((h u).2 hc))]
      refine congrArg (u :: ·) (ih ?_)
      intro x
      simp only [List.mem_cons]
      exact or_congr Iff.rfl (h x)

/-- The candidate predicate of the slug loop: not spam and robots-allowed. -/
def slugKeep (env : Env) (u : Str) : Bool := !SPAM_PATH_search u && canFetchB env u

theorem dedupSeen_cons_mem {u : Str} {seen : List Str} (h : u ∈ seen) (l : List Str) :
    dedupSeen seen (u :: l) = dedupSeen seen l := by
  show (if u ∈ seen then dedupSeen seen l else u :: dedupSeen (u :: seen) l) =
    dedupSeen seen l
  rw [if_pos h]

theorem dedupSeen_cons_not_mem {u : Str} {seen : List Str} (h : u ∉ seen) (l : List Str) :
    dedupSeen seen (u :: l) = u :: dedupSeen (u :: seen) l := by
  show (if u ∈ seen then dedupSeen seen l else u :: dedupSeen (u :: seen) l) =
    u :: dedupSeen (u :: seen) l
  rw [if_neg h]

theorem buildTried_eq (env : Env) (base : Str) :
    ∀ (slugs : List Str) (acc : List Str),
      (buildTried env base slugs acc).1 =
        acc ++ dedupSeen acc
          ((slugs.map (fun slug =>
            if slug = [] then base else urljoin (base ++ "/".toList) slug)).filter
              (slugKeep env)) := by
  intro slugs
  induction slugs with
  | nil => intro acc; simp [buildTried, dedupSeen]
  | cons slug rest ih =>
    intro acc
    unfold buildTried
    dsimp only
    simp only [List.map_cons, List.filter_cons]
    by_cases h1 : (if slug = [] then base else urljoin (base ++ "/".toList) slug) ∈ acc
    · rw [if_pos h1, ih]
      by_cases hk : slugKeep env
          (if slug = [] then base else urljoin (base ++ "/".toList) slug) = true
      · rw [if_pos hk, dedupSeen_cons_mem h1]
      · rw [if_neg hk]
    · rw [if_neg h1]
      by_cases h2 : SPAM_PATH_search
          (if slug = [] then base else urljoin (base ++ "/".toList) slug) = true
      · have hk : ¬ slugKeep env
            (if slug = [] then base else urljoin (base ++ "/".toList) slug) = true := by
          unfold slugKeep
          rw [h2]
          simp
        rw [if_pos h2, ih, if_neg hk]
      · by_cases hc : (can_fetch env
            (if slug = [] then base else urljoin (base ++ "/".toList) slug)).1 = true
        · have h2f : SPAM_PATH_search
              (if slug = [] then base else urljoin (base ++ "/".toList) slug) = false :=
            Bool.not_eq_true _ ▸ h2
          have hk : slugKeep env
              (if slug = [] then base else urljoin (base ++ "/".toList) slug) = true := by
            simp only [slugKeep, Bool.and_eq_true, Bool.not_eq_true']
            exact ⟨h2f, hc⟩
          rw [if_neg h2]
          dsimp only
          rw [if_pos hc, ih, if_pos hk, dedupSeen_cons_not_mem h1]
          rw [dedupSeen_congr (s := acc ++
            [if slug = [] then base else urljoin (base ++ "/".toList) slug])
            (t := (if slug = [] then base else urljoin (base ++ "/".toList) slug) :: acc)
            (by intro x; simp [or_comm])]
          simp
        · have hcf : (can_fetch env
              (if slug = [] then base else urljoin (base ++ "/".toList) slug)).1 = false :=
            Bool.not_eq_true _ ▸ hc
          have hk : ¬ slugKeep env
              (if slug = [] then base else urljoin (base ++ "/".toList) slug) = true := by
            simp only [slugKeep, Bool.and_eq_true, Bool.not_eq_true']
            intro hcond
            have hcb : canFetchB env
                (if slug = [] then base else urljoin (base ++ "/".toList) slug) = false := hcf
            exact absurd hcond.2 (by rw [hcb]; decide)
          rw [if_neg h2]
          dsimp only
          rw [if_neg hc, ih, if_neg hk]

theorem dedupSeen_nodup_notin :
    ∀ (l seen : List Str),
      (dedupSeen seen l).Nodup ∧ ∀ x ∈ dedupSeen seen l, x ∉ seen := by
  intro l
  induction l with
  | nil => intro seen; simp [dedupSeen]
  | cons u us ih =>
    intro seen
    unfold dedupSeen
    by_cases hu : u ∈ seen
    · rw [if_pos hu]
      exact ih seen
    · rw [if_neg hu]
      rcases ih (u :: seen) with ⟨hnd, hni⟩
      refine ⟨List.nodup_cons.2 ⟨fun hc => (hni u hc) (List.mem_cons_self _ _), hnd⟩, ?_⟩
      intro x hx
      rcases List.mem_cons.1 hx with h1 | h1
      · exact h1 ▸ hu
      · exact fun hc => (hni x h1) (List.mem_cons_of_mem _ hc)

theorem extendNotMem_eq :
    ∀ (l t : List Str), l.Nodup →
      extendNotMem t l = t ++ l.filter (fun u => decide (u ∉ t)) := by
  intro l
  induction l with
  | nil => intro t _; simp [extendNotMem]
  | cons u us ih =>
    intro t hnd
    rcases List.nodup_cons.1 hnd with ⟨hu, hus⟩
    unfold extendNotMem
    by_cases ht : u ∈ t
    · rw [if_pos ht, ih t hus]
      simp only [List.filter_cons, decide_eq_true_eq]
      rw [if_neg (by simpa using ht)]
    · rw [if_neg ht, ih (t ++ [u]) hus]
      have hf : us.filter (fun x => decide (x ∉ t ++ [u])) =
          us.filter (fun x => decide (x ∉ t)) := by
        refine List.filter_congr ?_
        intro x hx
        have hxu : x ≠ u := fun hc => hu (hc ▸ hx)
        simp [List.mem_append, hxu]
      rw [hf]
      simp only [List.filter_cons, decide_eq_true_eq]
      rw [if_pos (by simpa using ht)]
      simp

theorem discover_from_nav_nodup (env : Env) (base html : Str) (key : Section) :
    ((discover_from_nav env base html key).1).Nodup := by
  unfold discover_from_nav
  dsimp only
  exact ((List.take_sublist _ _).nodup
    (dedupSeen_nodup_notin _ []).1)

/-- Spec-side definition (claim C5 wording): the canonical slug guesses in
listed order, joined to the base URL, filtered to exclude spam-path matches
and robots-disallowed URLs, deduplicated by URL. -/
def specSlugCandidates (env : Env) (base : Str) (key : Section) : List Str :=
  dedupSeen []
    (((CANDIDATE_SLUGS key).map (fun slug =>
      if slug = [] then base else urljoin (base ++ "/".toList) slug)).filter
        (slugKeep env))

/-- C5: the candidate list tried by `try_section` is exactly the filtered,
deduplicated slug guesses (in listed order), followed by the nav-discovered
candidates not already present — every slug candidate precedes every
nav-only candidate. -/
theorem c5_slug_candidates_precede_nav (env : Env) (base html : Str) (key : Section) :
    (try_section_candidates env base html key).1 =
      specSlugCandidates env base key ++
      ((discover_from_nav env base html key).1).filter
        (fun u => decide (u ∉ specSlugCandidates env base key)) := by
  unfold try_section_candidates
  dsimp only
  rw [extendNotMem_eq _ _ (discover_from_nav_nodup env base html key)]
  rw [buildTried_eq]
  rfl

/-! ## C6 — nav-link scoring pipeline -/

/-- Spec-side definition (claim C6 wording): the anchors kept by nav
discovery — same-domain, non-spam, robots-allowed targets, with hrefs
resolved against the base URL and anchor texts stripped. -/
def specNavCandidates (env : Env) (base html : Str) : List (Str × Str) :=
  (env.anchorsOf html).filterMap (fun a =>
    let url_abs := urljoin (base ++ "/".toList) (pyStrip a.href)
    if same_domain url_abs base = true ∧ SPAM_PATH_search url_abs = false ∧
        canFetchB env url_abs = true
    then some (url_abs, pyStrip a.text) else none)

/-- Spec-side definition (claim C6 wording): the additive scoring formula —
+3.0 for an anchor-text regex match, +2.0 for a URL-path match, −1.0 for a
root path, up to +1.0 decreasing by 0.25 per path segment beyond the first,
−0.5 for a query string, −0.2 for a fragment. -/
def specScore (key : Section) (c : Str × Str) : ℚ :=
  let p := urlparse c.1
  let path := if p.path = [] then "/".toList else p.path
  let pl := pyLower path
  (if PATTERNS key (pyLower c.2) then (3 : ℚ) else 0) +
  (if PATTERNS key pl then (2 : ℚ) else 0) +
  (if pl = "/".toList ∨ pl = [] then (-1 : ℚ) else 0) +
  max 0 (1 - (1/4 : ℚ) * ((countChar '/' pl - 1 : ℕ) : ℚ)) +
  (if p.query ≠ [] then (-(1/2) : ℚ) else 0) +
  (if p.fragment ≠ [] then (-(1/5) : ℚ) else 0)

theorem score_eq_specScore (key : Section) (c : Str × Str) :
    score key c = specScore key c := by
  unfold score specScore
  dsimp only
  split_ifs <;> ring

theorem collectCandidates_eq (env : Env) (base : Str) :
    ∀ anchors, (collectCandidates env base anchors).1 =
      anchors.filterMap (fun a =>
        if same_domain (urljoin (base ++ "/".toList) (pyStrip a.href)) base = true ∧
            SPAM_PATH_search (urljoin (base ++ "/".toList) (pyStrip a.href)) = false ∧
            canFetchB env (urljoin (base ++ "/".toList) (pyStrip a.href)) = true
        then some (urljoin (base ++ "/".toList) (pyStrip a.href), pyStrip a.text)
        else none) := by
  intro anchors
  induction anchors with
  | nil => rfl
  | cons a rest ih =>
    unfold collectCandidates
    dsimp only
    simp only [List.filterMap_cons]
    by_cases h1 : same_domain (urljoin (base ++ "/".toList) (pyStrip a.href)) base = true
    · rw [if_neg (show ¬ (!same_domain
        (urljoin (base ++ "/".toList) (pyStrip a.href)) base) = true by
          rw [h1]; decide)]
      by_cases h2 : SPAM_PATH_search (urljoin (base ++ "/".toList) (pyStrip a.href)) = true
      · rw [if_pos h2, ih]
        rw [if_neg (fun hcond => absurd hcond.2.1 (by rw [h2]; decide))]
      · by_cases h3 : canFetchB env (urljoin (base ++ "/".toList) (pyStrip a.href)) = true
        · rw [if_neg h2]
          dsimp only
          rw [if_pos (show (can_fetch env
              (urljoin (base ++ "/".toList) (pyStrip a.href))).1 = true from h3)]
          rw [if_pos ⟨h1, Bool.not_eq_true _ ▸ h2, h3⟩, ih]
        · rw [if_neg h2]
          dsimp only
          rw [if_neg (show ¬ (can_fetch env
              (urljoin (base ++ "/".toList) (pyStrip a.href))).1 = true from h3)]
          rw [if_neg (fun hcond => h3 hcond.2.2), ih]
    · have h1f : same_domain (urljoin (base ++ "/".toList) (pyStrip a.href)) base = false :=
        Bool.not_eq_true _ ▸ h1
      rw [if_pos (show (!same_domain
        (urljoin (base ++ "/".toList) (pyStrip a.href)) base) = true by
          rw [h1f]; decide)]
      rw [ih, if_neg (fun hcond => h1 hcond.1)]

theorem insertDescBy_sorted {α : Type} (f : α → ℚ) (x : α) :
    ∀ {l : List α}, List.Sorted (fun a b => f b ≤ f a) l →
      List.Sorted (fun a b => f b ≤ f a) (insertDescBy f x l) := by
  intro l
  induction l with
  | nil => intro _; simp [insertDescBy]
  | cons y ys ih =>
    intro h
    rcases List.sorted_cons.1 h with ⟨hy, hys⟩
    unfold insertDescBy
    by_cases hc : f y ≤ f x
    · rw [if_pos hc]
      refine List.sorted_cons.2 ⟨?_, h⟩
      intro b hb
      rcases List.mem_cons.1 hb with h1 | h1
      · exact h1 ▸ hc
      · exact le_trans (hy b h1) hc
    · rw [if_neg hc]
      refine List.sorted_cons.2 ⟨?_, ih hys⟩
      intro b hb
      rcases mem_insertDescBy f x b _ hb with h1 | h1
      · exact h1 ▸ le_of_lt (lt_of_not_le hc)
      · exact hy b h1

theorem sortDescBy_sorted {α : Type} (f : α → ℚ) :
    ∀ l : List α, List.Sorted (fun a b => f b ≤ f a) (sortDescBy f l) := by
  intro l
  induction l with
  | nil => simp [sortDescBy]
  | cons y ys ih => exact insertDescBy_sorted f y ih

/-- C6: nav discovery keeps exactly the same-domain, non-spam,
robots-allowed anchor targets, scores them by the stated additive formula,
sorts descending (stably) by that score, deduplicates by URL keeping first
occurrences, and caps the result at 8; and the intermediate ranking really
is sorted descending by the score. -/
theorem c6_nav_scoring_pipeline (env : Env) (base html : Str) (key : Section) :
    (discover_from_nav env base html key).1 =
      (dedupSeen []
        ((sortDescBy (specScore key) (specNavCandidates env base html)).map
          Prod.fst)).take 8 ∧
    List.Sorted (fun a b => specScore key b ≤ specScore key a)
      (sortDescBy (specScore key) (specNavCandidates env base html)) := by
  have hs : score key = specScore key := funext (score_eq_specScore key)
  constructor
  · unfold discover_from_nav
    dsimp only
    rw [collectCandidates_eq, hs]
    rfl
  · exact sortDescBy_sorted (specScore key) _

/-! ## C3 — domain containment

The manifest records `r.url.rstrip("/")` while `same_domain` was checked on
`r.url` itself, so the heart of the claim is that stripping trailing
slashes never changes the `urlsplit` netloc. -/

theorem takeWhile_all_slash {v : Str} (hv : v.all (fun c => c = '/') = true) :
    v.takeWhile isNetlocChar = [] := by
  cases v with
  | nil => rfl
  | cons c w =>
    have hc : c = '/' :=
      of_decide_eq_true ((List.all_eq_true.1 hv) c (List.mem_cons_self _ _))
    simp [List.takeWhile_cons, hc, isNetlocChar]

theorem all_slash_drop {v : Str} (n : Nat) (hv : v.all (fun c => c = '/') = true) :
    (v.drop n).all (fun c => c = '/') = true := by
  refine List.all_eq_true.2 ?_
  intro x hx
  exact (List.all_eq_true.1 hv) x (List.drop_subset n v hx)

theorem takeWhile_netloc_append {t v : Str} (hv : v.all (fun c => c = '/') = true) :
    (t ++ v).takeWhile isNetlocChar = t.takeWhile isNetlocChar := by
  rw [List.takeWhile_append]
  split
  · next h =>
    have ht : t.takeWhile isNetlocChar = t :=
      (List.takeWhile_prefix _).eq_of_length h
    rw [takeWhile_all_slash hv, List.append_nil, ht]
  · rfl

theorem splitNetloc_fst_append {v : Str} (hv : v.all (fun c => c = '/') = true) :
    ∀ r : Str, (splitNetloc (r ++ v)).1 = (splitNetloc r).1 := by
  have hslash : "//".toList = ['/', '/'] := rfl
  intro r
  match r with
  | [] =>
    rw [List.nil_append]
    rw [show (splitNetloc ([] : Str)).1 = [] from rfl]
    unfold splitNetloc
    split
    · exact takeWhile_all_slash (all_slash_drop 2 hv)
    · rfl
  | [c1] =>
    unfold splitNetloc
    have h2 : ¬ ([c1] : Str).take 2 = "//".toList := by
      rw [hslash]
      simp
    rw [if_neg h2]
    by_cases hc1 : c1 = '/'
    · subst hc1
      split
      · exact takeWhile_all_slash (all_slash_drop 1 hv)
      · rfl
    · have h1 : ¬ (([c1] : Str) ++ v).take 2 = "//".toList := by
        rw [hslash]
        cases v with
        | nil => simp
        | cons c2 w =>
          intro hcontra
          simp only [List.singleton_append, List.take_succ_cons, List.cons.injEq] at hcontra
          exact hc1 hcontra.1
      rw [if_neg h1]
  | c1 :: c2 :: r2 =>
    have hlen : 2 ≤ (c1 :: c2 :: r2 : Str).length := by simp
    have htake : ((c1 :: c2 :: r2 : Str) ++ v).take 2 = (c1 :: c2 :: r2 : Str).take 2 :=
      List.take_append_of_le_length hlen
    have hdrop : ((c1 :: c2 :: r2 : Str) ++ v).drop 2 = (c1 :: c2 :: r2 : Str).drop 2 ++ v :=
      List.drop_append_of_le_length hlen
    unfold splitNetloc
    rw [htake]
    by_cases hc : (c1 :: c2 :: r2 : Str).take 2 = "//".toList
    · rw [if_pos hc, if_pos hc]
      dsimp only
      rw [hdrop]
      exact takeWhile_netloc_append hv
    · rw [if_neg hc, if_neg hc]

theorem splitScheme_append {a v : Str} (hv : v.all (fun c => c = '/') = true) :
    (splitScheme (a ++ v)).1 = (splitScheme a).1 ∧
    (splitScheme (a ++ v)).2 = (splitScheme a).2 ++ v := by
  by_cases hc : List.findIdx (fun c => c = ':') a < a.length
  · have hi : List.findIdx (fun c => c = ':') (a ++ v) =
        List.findIdx (fun c => c = ':') a := by
      rw [List.findIdx_append, if_pos hc]
    have hlen : List.findIdx (fun c => c = ':') a < (a ++ v).length :=
      lt_of_lt_of_le hc (by simp)
    have htake : (a ++ v).take (List.findIdx (fun c => c = ':') a) =
        a.take (List.findIdx (fun c => c = ':') a) :=
      List.take_append_of_le_length (le_of_lt hc)
    have hdrop : (a ++ v).drop (List.findIdx (fun c => c = ':') a + 1) =
        a.drop (List.findIdx (fun c => c = ':') a + 1) ++ v :=
      List.drop_append_of_le_length hc
    have hhead : (a ++ v).headD ' ' = a.headD ' ' := by
      cases a with
      | nil => simp at hc
      | cons x xs => rfl
    unfold splitScheme
    dsimp only
    rw [hi, htake, hdrop, hhead]
    by_cases hcond : 0 < List.findIdx (fun c => c = ':') a ∧
        (a.take (List.findIdx (fun c => c = ':') a)).all isSchemeChar = true ∧
        (a.headD ' ').isAlpha = true
    · rw [if_pos ⟨hcond.1, hlen, hcond.2.1, hcond.2.2⟩,
        if_pos ⟨hcond.1, hc, hcond.2.1, hcond.2.2⟩]
      exact ⟨rfl, rfl⟩
    · rw [if_neg (fun hx => hcond ⟨hx.1, hx.2.2.1, hx.2.2.2⟩),
        if_neg (fun hx => hcond ⟨hx.1, hx.2.2.1, hx.2.2.2⟩)]
      exact ⟨rfl, rfl⟩
  · have hca : List.findIdx (fun c => c = ':') a = a.length :=
      Nat.le_antisymm (List.findIdx_le_length _) (Nat.not_lt.1 hc)
    have hcav : List.findIdx (fun c => c = ':') (a ++ v) = (a ++ v).length := by
      refine List.findIdx_eq_length.2 ?_
      intro x hx
      rcases List.mem_append.1 hx with h1 | h1
      · exact (List.findIdx_eq_length.1 hca) x h1
      · have hx' : x = '/' := of_decide_eq_true ((List.all_eq_true.1 hv) x h1)
        subst hx'
        decide
    unfold splitScheme
    dsimp only
    rw [hca, hcav]
    rw [if_neg (fun hx => lt_irrefl _ hx.2.1), if_neg (fun hx => lt_irrefl _ hx.2.1)]
    exact ⟨rfl, rfl⟩

theorem urlsplit_netloc_append {a v : Str} (hv : v.all (fun c => c = '/') = true) :
    (urlsplit (a ++ v)).netloc = (urlsplit a).netloc := by
  unfold urlsplit urlsplitD
  dsimp only
  rw [(splitScheme_append hv).2]
  exact splitNetloc_fst_append hv _

/-- `rstripSlash` on a cons, when the tail strips to empty and the head is a
slash. -/
theorem rstripSlash_cons_nil_slash {t : Str} (hrt : rstripSlash t = []) :
    rstripSlash ('/' :: t) = [] := by
  unfold rstripSlash pyRstrip
  unfold rstripSlash at hrt
  rw [hrt]
  simp

/-- `rstripSlash` on a cons, when the tail strips to empty and the head is
not a slash. -/
theorem rstripSlash_cons_nil_notslash {c : Char} {t : Str} (hrt : rstripSlash t = [])
    (hc : ¬ c = '/') : rstripSlash (c :: t) = [c] := by
  unfold rstripSlash pyRstrip
  unfold rstripSlash at hrt
  rw [hrt]
  simp [hc]

/-- `rstripSlash` on a cons, when the tail strips to something nonempty. -/
theorem rstripSlash_cons_cons {c x : Char} {t xs : Str}
    (hrt : rstripSlash t = x :: xs) : rstripSlash (c :: t) = c :: x :: xs := by
  unfold rstripSlash pyRstrip
  unfold rstripSlash at hrt
  rw [hrt]

theorem rstripSlash_decomp :
    ∀ u : Str, ∃ v, u = rstripSlash u ++ v ∧ v.all (fun c => c = '/') = true := by
  intro u
  induction u with
  | nil => exact ⟨[], rfl, rfl⟩
  | cons c t ih =>
    obtain ⟨v, hv, hall⟩ := ih
    cases hrt : rstripSlash t with
    | nil =>
      rw [hrt] at hv
      rw [List.nil_append] at hv
      by_cases hc : c = '/'
      · subst hc
        refine ⟨'/' :: t, ?_, ?_⟩
        · rw [rstripSlash_cons_nil_slash hrt, List.nil_append]
        · rw [List.all_cons]
          have h1 : (decide ('/' = '/')) = true := by decide
          rw [h1, hv, hall]
          rfl
      · refine ⟨v, ?_, hall⟩
        rw [rstripSlash_cons_nil_notslash hrt hc, List.singleton_append]
        rw [← hv]
    | cons x xs =>
      refine ⟨v, ?_, hall⟩
      rw [rstripSlash_cons_cons hrt]
      rw [hrt] at hv
      rw [List.cons_append, ← hv]

/-- Stripping trailing slashes never changes the netloc. -/
theorem urlsplit_netloc_rstripSlash (u : Str) :
    (urlsplit (rstripSlash u)).netloc = (urlsplit u).netloc := by
  obtain ⟨v, hu, hv⟩ := rstripSlash_decomp u
  conv_rhs => rw [hu]
  exact (urlsplit_netloc_append hv).symm

/-- The params split of `urlparse` does not touch the netloc. -/
theorem urlparse_netloc (u : Str) : (urlparse u).netloc = (urlsplit u).netloc := by
  unfold urlparse urlparseD
  dsimp only
  split <;> rfl

theorem same_domain_netloc {u b : Str} (h : same_domain u b = true) :
    (urlparse u).netloc = (urlparse b).netloc :=
  of_decide_eq_true h

/-- Any URL accepted by the `try_section` fetch loop has, after the
trailing-slash strip, the same netloc as the base. -/
theorem firstSuccess_netloc (env : Env) (base : Str) :
    ∀ (l : List Str) (u h : Str) (st : Nat),
      (firstSuccess env base l).1 = some (u, h, st) →
      (urlparse u).netloc = (urlparse base).netloc := by
  intro l
  induction l with
  | nil => intro u h st hyp; simp [firstSuccess] at hyp
  | cons c cs ih =>
    intro u h st hyp
    unfold firstSuccess at hyp
    dsimp only at hyp
    split at hyp
    · rename_i r hfr
      split at hyp
      · rename_i hcond
        simp only [Option.some.injEq, Prod.mk.injEq] at hyp
        obtain ⟨hu, _, _⟩ := hyp
        have hcond' : is_html_ok r = true ∧ same_domain r.url base = true :=
          (Bool.and_eq_true _ _) ▸ hcond
        have hnet := same_domain_netloc hcond'.2
        rw [← hu, urlparse_netloc, urlparse_netloc, urlsplit_netloc_rstripSlash]
        rw [urlparse_netloc, urlparse_netloc] at hnet
        exact hnet
      · exact ih u h st hyp
    · exact ih u h st hyp

/-- Projection form of `try_section` (definitional). -/
theorem try_section_fst (env : Env) (base html : Str) (key : Section) :
    (try_section env base html key).1 =
      (firstSuccess env base (try_section_candidates env base html key).1).1 := rfl

theorem manifestEntry_some {res : Option (Str × Str × Nat)} {u : Str}
    (h : manifestEntry res = some u) : ∃ hh st, res = some (u, hh, st) := by
  cases res with
  | none => simp [manifestEntry] at h
  | some x =>
    rcases x with ⟨u', hh, st⟩
    simp only [manifestEntry] at h
    split at h
    · simp only [Option.some.injEq] at h
      exact ⟨hh, st, by rw [h]⟩
    · simp at h

/-- Inversion: a success result of `_scrape_company_to_dir` has the shape
built in the final branch. -/
theorem scrape_to_dir_ok_shape (env : Env) (record : CompanyRecord)
    (s : SuccessResult)
    (h : (_scrape_company_to_dir env record).1 = .ok s) :
    ∃ r0 : Response,
      s.sections.homepage = rstripSlash r0.url ∧
      s.sections.about =
        manifestEntry (try_section env (rstripSlash r0.url) r0.text .about).1 ∧
      s.sections.product =
        manifestEntry (try_section env (rstripSlash r0.url) r0.text .product).1 ∧
      s.sections.careers =
        manifestEntry (try_section env (rstripSlash r0.url) r0.text .careers).1 ∧
      s.sections.blog =
        manifestEntry (try_section env (rstripSlash r0.url) r0.text .blog).1 := by
  rw [scrape_to_dir_eq] at h
  split at h
  · simp at h
  · split at h
    · simp at h
    · split at h
      · simp at h
      · simp at h
      · rename_i r0 hfr
        split at h
        · simp at h
        · split at h
          · simp at h
          · simp only [Except.ok.injEq] at h
            subst h
            exact ⟨r0, rfl, rfl, rfl, rfl, rfl⟩

/-- C3: in every success manifest, every resolved section URL (about,
product, careers, blog) has the same `urlparse` netloc as the recorded
final post-redirect homepage URL. -/
theorem c3_sections_same_domain_as_homepage (env : Env) (cid : Option Str)
    (comp : CompanyDict) (ov : Str → Option Str) (s : SuccessResult)
    (hs : (scrape_company env cid comp ov).1 = .success s) :
    ∀ u : Str,
      (s.sections.about = some u ∨ s.sections.product = some u ∨
       s.sections.careers = some u ∨ s.sections.blog = some u) →
      (urlparse u).netloc = (urlparse s.sections.homepage).netloc := by
  rw [scrape_company_eq] at hs
  rcases hdir : (_scrape_company_to_dir env
      (_resolve_company_inputs env cid comp ov).1).1 with e | s'
  · rw [hdir] at hs
    simp at hs
  · rw [hdir] at hs
    simp only at hs
    have hss : s' = s := by
      have := hs
      simp only [ScrapeReturn.success.injEq] at this
      exact this
    subst hss
    obtain ⟨r0, hh, ha, hp, hc, hb⟩ :=
      scrape_to_dir_ok_shape env (_resolve_company_inputs env cid comp ov).1 s' hdir
    intro u hu
    rw [hh]
    have hfetch : ∀ key, manifestEntry
        (try_section env (rstripSlash r0.url) r0.text key).1 = some u →
        (urlparse u).netloc = (urlparse (rstripSlash r0.url)).netloc := by
      intro key hme
      obtain ⟨hh', st, hres⟩ := manifestEntry_some hme
      rw [try_section_fst] at hres
      exact firstSuccess_netloc env (rstripSlash r0.url) _ u hh' st hres
    rcases hu with h1 | h1 | h1 | h1
    · exact hfetch .about (by rw [← ha]; exact h1)
    · exact hfetch .product (by rw [← hp]; exact h1)
    · exact hfetch .careers (by rw [← hc]; exact h1)
    · exact hfetch .blog (by rw [← hb]; exact h1)

/-- The C3 witness response for the about page. -/
def rAboutW : Response :=
  ⟨200, "text/html".toList, "https://acme.example/about".toList,
   "<html>about</html>".toList⟩

/-- Environment for the C3 witness: homepage and `/about` respond 200 HTML;
everything else fails. -/
def env3 : Env :=
  { witnessEnv with
    pageFetch := fun u =>
      if u = "https://acme.example".toList then some r0w
      else if u = "https://acme.example/about".toList then some rAboutW
      else none }

/-- The success manifest the C3 witness crawl produces. -/
def s3val : SuccessResult :=
  { company_id := "acme-co".toList
    company_name := "Acme Co".toList
    sections :=
      { homepage := "https://acme.example".toList
        about := some "https://acme.example/about".toList
        product := none, careers := none, blog := none }
    status := "success".toList }

/-- Witness for C3 at a concrete crawl with a resolved about section. -/
theorem c3_sections_same_domain_witness :
    ((scrape_company env3 none comp7 noOverrides).1 = .success s3val ∧
     s3val.sections.about = some "https://acme.example/about".toList) ∧
    (urlparse "https://acme.example/about".toList).netloc =
      (urlparse s3val.sections.homepage).netloc :=
  ⟨⟨by decide, by decide⟩,
   c3_sections_same_domain_as_homepage env3 none comp7 noOverrides s3val
     (by decide) "https://acme.example/about".toList (Or.inl (by decide))⟩

end InvestIQ
